import Mathlib

/-!
Verification of the financial-statement normalization and ratio-calculation
pipeline of the samsamoo-ai-server repository.

The Python source is shallowly embedded: dictionaries become ordered
association lists (`Dict`), Python floats and `Decimal` values become exact
rationals (`ℚ`), functions that can raise become `Except`-valued functions,
and in-place mutation of a dictionary argument becomes explicit return of the
updated dictionary.  Regular-expression operations of the source are embedded
as equivalent character-list scanners specialised to the concrete patterns
appearing in the code.
-/

set_option maxRecDepth 4000

namespace Samsamoo

/-- Whitespace as stripped by Python `str.strip` / split by `str.split`
(ASCII whitespace; exotic Unicode spaces are outside the model). -/
def pySpace (c : Char) : Bool :=
  c = ' ' || c = '\t' || c = '\n' || c = '\r' || c = '\x0b' || c = '\x0c'

def isDigitCh (c : Char) : Bool := '0' ≤ c && c ≤ '9'

/-- Python `str.strip()` on a character list. -/
def stripChars (l : List Char) : List Char :=
  ((l.dropWhile pySpace).reverse.dropWhile pySpace).reverse

/-- Python `str.strip()`. -/
def stripS (s : String) : String := ⟨stripChars s.data⟩

/-- Python `str.replace(c, "")`. -/
def removeChar (c : Char) (l : List Char) : List Char := l.filter (fun x => x != c)

/-- `pat in s` for character lists (Python substring test). -/
def listInfixOf (pat : List Char) : List Char → Bool
  | [] => pat.isEmpty
  | c :: rest => pat.isPrefixOf (c :: rest) || listInfixOf pat rest

/-- Python `pat in s` substring containment. -/
def strContains (s pat : String) : Bool := listInfixOf pat.data s.data

/-- A Python dict with string keys, modelled as an insertion-ordered
association list (no duplicate keys are ever created by the operations
below when starting from a duplicate-free list). -/
abbrev Dict (α : Type) := List (String × α)

/-- Python `k in d`. -/
def hasKey (d : Dict α) (k : String) : Bool := d.any (fun p => p.1 == k)

/-- Python `d.get(k)` / `d[k]`. -/
def lookupD (d : Dict α) (k : String) : Option α :=
  (d.find? (fun p => p.1 == k)).map (fun p => p.2)

/-- Python `d.get(k, 0)` for numeric dicts. -/
def getD0 (d : Dict ℚ) (k : String) : ℚ := (lookupD d k).getD 0

/-- Python `d[k] = v`: update in place when the key exists, else append
(preserving CPython's insertion-order semantics). -/
def setKey (d : Dict α) (k : String) (v : α) : Dict α :=
  if hasKey d k then d.map (fun p => if p.1 == k then (k, v) else p)
  else d ++ [(k, v)]

/-! ### Kernel-computable rational arithmetic

The Batteries implementations of `Rat.add`, `Rat.sub`, `Rat.mul` and
`Rat.inv` are `@[irreducible]`, so closed terms built from them cannot be
evaluated by `decide`.  The embedding therefore computes with the following
`Rat.divInt`-based primitives; each is proved equal to the corresponding
standard operation on `ℚ` (`qadd_eq` … below), so theorem statements can use
the ordinary operations. -/

def qadd (a b : ℚ) : ℚ := Rat.divInt (a.num * b.den + b.num * a.den) (a.den * b.den)

def qsub (a b : ℚ) : ℚ := Rat.divInt (a.num * b.den - b.num * a.den) (a.den * b.den)

def qmul (a b : ℚ) : ℚ := Rat.divInt (a.num * b.num) (a.den * b.den)

def qdiv (a b : ℚ) : ℚ := Rat.divInt (a.num * b.den) (b.num * a.den)

def qneg (q : ℚ) : ℚ := Rat.divInt (-q.num) q.den

def qabs (q : ℚ) : ℚ := if q < 0 then qneg q else q

/-! ## Value Parser (`PDFExtractionService._parse_financial_value`) -/

/-- Characters allowed inside the integer/fraction digit groups of a Python
float literal: digits and the separating underscores. -/
def digitOrUnd (c : Char) : Bool := isDigitCh c || c = '_'

def noDoubleUnd : List Char → Bool
  | [] => true
  | [_] => true
  | a :: b :: rest => !(a = '_' && b = '_') && noDoubleUnd (b :: rest)

/-- A digit group of a Python float literal is valid iff it is nonempty,
starts and ends with a digit, and has no two adjacent underscores. -/
def validDigitRun (l : List Char) : Bool :=
  match l with
  | [] => false
  | c :: _ =>
    isDigitCh c &&
    (match l.getLast? with | some d => isDigitCh d | none => false) &&
    noDoubleUnd l

def natOfDigits (l : List Char) : ℕ :=
  l.foldl (fun n c => 10 * n + (c.toNat - '0'.toNat)) 0

/-- Digits of a group with the underscores removed. -/
def digitsOnly (l : List Char) : List Char := l.filter isDigitCh

def pyFloatExpBody (r : List Char) : Option ℤ :=
  match r with
  | '+' :: r2 =>
    let run := r2.takeWhile digitOrUnd
    if validDigitRun run && r2.drop run.length = [] then
      some (natOfDigits (digitsOnly run) : ℤ) else none
  | '-' :: r2 =>
    let run := r2.takeWhile digitOrUnd
    if validDigitRun run && r2.drop run.length = [] then
      some (-(natOfDigits (digitsOnly run) : ℤ)) else none
  | _ =>
    let run := r.takeWhile digitOrUnd
    if validDigitRun run && r.drop run.length = [] then
      some (natOfDigits (digitsOnly run) : ℤ) else none

/-- Parse the exponent suffix `([eE][+-]?digits)?` and require the end of
input; returns the signed exponent. -/
def pyFloatExp (l : List Char) : Option ℤ :=
  match l with
  | [] => some 0
  | 'e' :: r => pyFloatExpBody r
  | 'E' :: r => pyFloatExpBody r
  | _ => none

def applyExp (q : ℚ) (e : ℤ) : ℚ :=
  if 0 ≤ e then Rat.divInt (q.num * (10 ^ e.toNat : ℕ)) q.den
  else Rat.divInt q.num (q.den * (10 ^ (-e).toNat : ℕ))

/-- Python `float(s)` on the finite-decimal grammar, as an exact rational.
Non-finite literals (`inf`, `infinity`, `nan`) have no rational value and
are modelled as parse failures; they cannot arise from the numeric table
cells this parser is applied to. -/
def pyFloatQ (s : List Char) : Option ℚ :=
  let l := stripChars s
  let signAndRest : Bool × List Char :=
    match l with
    | '+' :: r => (false, r)
    | '-' :: r => (true, r)
    | _ => (false, l)
  let neg := signAndRest.1
  let l1 := signAndRest.2
  let intRun := l1.takeWhile digitOrUnd
  let afterInt := l1.drop intRun.length
  let core : Option (ℚ × List Char) :=
    if validDigitRun intRun then
      match afterInt with
      | '.' :: r2 =>
        let fracRun := r2.takeWhile digitOrUnd
        if fracRun = [] then
          some ((natOfDigits (digitsOnly intRun) : ℚ), r2)
        else if validDigitRun fracRun then
          some (Rat.divInt
              (natOfDigits (digitsOnly intRun) * 10 ^ (digitsOnly fracRun).length +
                natOfDigits (digitsOnly fracRun) : ℕ)
              ((10 ^ (digitsOnly fracRun).length : ℕ)),
            r2.drop fracRun.length)
        else none
      | r2 => some ((natOfDigits (digitsOnly intRun) : ℚ), r2)
    else if intRun = [] then
      match afterInt with
      | '.' :: r2 =>
        let fracRun := r2.takeWhile digitOrUnd
        if validDigitRun fracRun then
          some (Rat.divInt (natOfDigits (digitsOnly fracRun) : ℕ)
              ((10 ^ (digitsOnly fracRun).length : ℕ)),
            r2.drop fracRun.length)
        else none
      | _ => none
    else none
  match core with
  | none => none
  | some (q, rest) =>
    match pyFloatExp rest with
    | none => none
    | some e => some (applyExp (if neg then qneg q else q) e)

def numClass (c : Char) : Bool := isDigitCh c || c = '.'

/-- First match of the regex `-?[\d.]+` (re.search), as the matched
substring. -/
def firstNumericSub : List Char → Option (List Char)
  | [] => none
  | c :: rest =>
    if c = '-' then
      match rest with
      | d :: _ =>
        if numClass d then some ('-' :: rest.takeWhile numClass)
        else firstNumericSub rest
      | [] => none
    else if numClass c then some ((c :: rest).takeWhile numClass)
    else firstNumericSub rest

/-- The cleaned residual string that `_parse_financial_value` hands to
`float(...)` (the formatting-removal steps before the try/except). -/
def pfvCleaned (s : List Char) : List Char :=
  let v1 := stripChars (s.map (fun c => if c = '\n' then ' ' else c))
  let c1 := (((v1.filter (· != ',')).filter (· != '₩')).filter (· != '$')).filter (· != ' ')
  let c2 :=
    match c1.head?, c1.getLast? with
    | some '(', some ')' => '-' :: (c1.drop 1).dropLast
    | _, _ => c1
  let c3 :=
    match c2 with
    | '△' :: r => '-' :: r
    | '▲' :: r => '-' :: r
    | _ => c2
  stripChars c3

/-- `PDFExtractionService._parse_financial_value`, on character lists:
early returns for empty/dash cells, then `float` on the cleaned residual
with the best-effort regex fallback. -/
def pfvList (s : List Char) : ℚ :=
  if s = [] then 0 else
  let v1 := stripChars (s.map (fun c => if c = '\n' then ' ' else c))
  if v1 = ['-'] ∨ v1 = ['—'] ∨ v1 = ['－'] ∨ v1 = [] then 0 else
  let c4 := pfvCleaned s
  if c4 = [] then 0 else
  match pyFloatQ c4 with
  | some q => q
  | none =>
    match firstNumericSub c4 with
    | some t => (pyFloatQ t).getD 0
    | none => 0

def parse_financial_value (value_str : String) : ℚ := pfvList value_str.data

/-! ## Item Name Cleaner (`PDFExtractionService._clean_item_name`) -/

/-- Character class `[\d,\s\.]` of the note-reference pattern. -/
def noteClass (c : Char) : Bool := isDigitCh c || c = ',' || pySpace c || c = '.'

/-- After `(주` or `(주석`: match `[\d,\s\.]+\)` (the leading `\s*` is
absorbed by the class, which contains `\s`), then consume the trailing
`\s*`; returns the remainder on success. -/
def noteBody (r : List Char) : Option (List Char) :=
  match r with
  | c :: _ =>
    if noteClass c then
      match r.dropWhile noteClass with
      | ')' :: tail => some (tail.dropWhile pySpace)
      | _ => none
    else none
  | [] => none

/-- Try the pattern `\s*\(주\s*[\d,\s\.]+\)\s*|\s*\(주석\s*[\d,\s\.]+\)\s*`
at the start of `l`; returns the remainder after the match. -/
def tryNote (l : List Char) : Option (List Char) :=
  match l.dropWhile pySpace with
  | '(' :: '주' :: rest =>
    match noteBody rest with
    | some tail => some tail
    | none =>
      match rest with
      | '석' :: rest2 => noteBody rest2
      | _ => none
  | _ => none

/-- Try the pattern `\s*\(단위\s*:\s*[^)]+\)\s*` at the start of `l`
(the `\s*` before `[^)]+` is absorbed by the class, which contains
whitespace); returns the remainder after the match. -/
def tryUnit (l : List Char) : Option (List Char) :=
  match l.dropWhile pySpace with
  | '(' :: '단' :: '위' :: rest =>
    match rest.dropWhile pySpace with
    | ':' :: rest2 =>
      match rest2 with
      | c :: _ =>
        if c ≠ ')' then
          match rest2.dropWhile (fun x => x != ')') with
          | ')' :: tail => some (tail.dropWhile pySpace)
          | _ => none
        else none
      | [] => none
    | _ => none
  | _ => none

/-- `re.sub(pattern, '', s)`: scan left to right, removing every match found
by `m`; `m` always consumes at least one character on success, so the input
length is sufficient fuel. -/
def subAllF (m : List Char → Option (List Char)) : ℕ → List Char → List Char
  | 0, l => l
  | _ + 1, [] => []
  | fuel + 1, c :: rest =>
    match m (c :: rest) with
    | some r => subAllF m fuel r
    | none => c :: subAllF m fuel rest

/-- Removal of all note references `(주...)` / `(주석...)`. -/
def subNoteRefs (l : List Char) : List Char := subAllF tryNote l.length l

/-- Removal of all unit annotations `(단위 : ...)`. -/
def subUnits (l : List Char) : List Char := subAllF tryUnit l.length l

/-- Character class of `^[ⅠⅡⅢⅣⅤⅥⅦⅧⅨⅩIVXivx\d]+\.\s*`. -/
def romanClass (c : Char) : Bool :=
  c = 'Ⅰ' || c = 'Ⅱ' || c = 'Ⅲ' || c = 'Ⅳ' || c = 'Ⅴ' || c = 'Ⅵ' ||
  c = 'Ⅶ' || c = 'Ⅷ' || c = 'Ⅸ' || c = 'Ⅹ' || c = 'I' || c = 'V' ||
  c = 'X' || c = 'i' || c = 'v' || c = 'x' || isDigitCh c

/-- `re.sub(r'^[ⅠⅡⅢⅣⅤⅥⅦⅧⅨⅩIVXivx\d]+\.\s*', '', s)` (anchored, hence at
most one removal). -/
def subPrefixOrdinal (l : List Char) : List Char :=
  match l with
  | c :: _ =>
    if romanClass c then
      match l.dropWhile romanClass with
      | '.' :: rest => rest.dropWhile pySpace
      | _ => l
    else l
  | [] => []

/-- Backward scan used for `\s*\([^)]*\)\s*$`: the input is the reversed
character list after the final `)`; finds the earliest (in the original
string) `(` reachable without crossing another `)`, and drops the
whitespace run preceding it. -/
def trailParenAux : List Char → Option (List Char)
  | [] => none
  | c :: rest =>
    if c = ')' then none
    else if c = '(' then
      match trailParenAux rest with
      | some r => some r
      | none => some (rest.dropWhile pySpace)
    else trailParenAux rest

/-- `re.sub(r'\s*\([^)]*\)\s*$', '', s)`. -/
def subTrailingParen (l : List Char) : List Char :=
  match l.reverse.dropWhile pySpace with
  | ')' :: r2 =>
    match trailParenAux r2 with
    | some rem => rem.reverse
    | none => l
  | _ => l

/-- Python `str.split()`: split on whitespace runs, discarding empties
(`acc` holds the current token reversed). -/
def splitWSAux : List Char → List Char → List (List Char)
  | [], acc => if acc = [] then [] else [acc.reverse]
  | c :: rest, acc =>
    if pySpace c then
      if acc = [] then splitWSAux rest []
      else acc.reverse :: splitWSAux rest []
    else splitWSAux rest (c :: acc)

def splitWS (l : List Char) : List (List Char) := splitWSAux l []

/-- `' '.join(tokens)`. -/
def joinSp : List (List Char) → List Char
  | [] => []
  | [t] => t
  | t :: ts => t ++ ' ' :: joinSp ts

/-- `' '.join(s.split())`. -/
def normWS (l : List Char) : List Char := joinSp (splitWS l)

/-- `PDFExtractionService._clean_item_name` on character lists. -/
def cleanList (l : List Char) : List Char :=
  if l = [] then [] else
  stripChars (normWS (subTrailingParen (subPrefixOrdinal (subUnits (subNoteRefs l)))))

/-- `PDFExtractionService._clean_item_name`. -/
def clean_item_name (s : String) : String := ⟨cleanList s.data⟩

/-! ## Row Classifier (`_is_notes_row` / `_is_aggregate_row`) -/

def COMPANY_SUFFIXES : List String :=
  ["㈜", "(주)", "Ltd.", "Ltd", "Inc.", "Inc", "Co.", "Co",
   "LLC", "LLC.", "GmbH", "B.V.", "S.A.", "Pte.", "Ltda.",
   "Corporation", "Corp.", "Corp", "Limited"]

def NOTES_INDICATORS : List String :=
  ["(*", "주석", "(*1)", "(*2)", "(*3)",
   "관계기업", "종속기업", "지분법",
   "세부내역", "상세내역", "내역서"]

def headerKeywords : List String := ["요약", "구 분", "과 목", "기 업 명", "구분", "과목"]

/-- `re.search(r'\(\*\d*\)', s)` as a boolean. -/
def hasStarRef : List Char → Bool
  | [] => false
  | c :: rest =>
    (if c = '(' then
      match rest with
      | '*' :: r2 =>
        match r2.dropWhile isDigitCh with
        | ')' :: _ => true
        | _ => false
      | _ => false
    else false) || hasStarRef rest

/-- `PDFExtractionService._is_notes_row`. -/
def is_notes_row (item_name : String) : Bool :=
  if item_name = "" then false
  else
    hasStarRef item_name.data ||
    COMPANY_SUFFIXES.any (fun suf => strContains item_name suf) ||
    NOTES_INDICATORS.any (fun ind => strContains item_name ind) ||
    headerKeywords.any (fun kw => strContains item_name kw)

def aggregatePatterns : List String :=
  ["자산총계", "부채총계", "자본총계",
   "자산 총계", "부채 총계", "자본 총계",
   "유동자산", "비유동자산", "유동부채", "비유동부채",
   "매출액", "영업이익", "당기순이익", "분기순이익",
   "법인세비용차감전순이익"]

/-- `str.replace(" ", "")`. -/
def removeSpaces (s : String) : String := ⟨removeChar ' ' s.data⟩

/-- `PDFExtractionService._is_aggregate_row`. -/
def is_aggregate_row (item_name : String) : Bool :=
  if item_name = "" then false
  else (aggregatePatterns.map removeSpaces).contains (removeSpaces item_name)

/-! ## Column Selector (`_find_value_column_index`) -/

/-- One header cell as normalised before insertion into the header map:
`str(cell).strip().replace(" ", "")`. -/
def cellNorm (s : String) : String := removeSpaces (stripS s)

/-- Insert one header cell into the insertion-ordered column-header map:
a fresh index is appended, an existing one has `" " + text` concatenated. -/
def insertHeader (acc : List (ℕ × String)) (idx : ℕ) (txt : String) : List (ℕ × String) :=
  if acc.any (fun p => p.1 == idx) then
    acc.map (fun p => if p.1 == idx then (p.1, p.2 ++ " " ++ txt) else p)
  else acc ++ [(idx, txt)]

def addRowHeaders (acc : List (ℕ × String)) (row : List String) : List (ℕ × String) :=
  row.enum.foldl
    (fun a ic =>
      if ic.1 = 0 then a
      else
        let cs := cellNorm ic.2
        if cs = "" then a else insertHeader a ic.1 cs)
    acc

/-- The `column_headers` map built from the first five rows. -/
def buildColumnHeaders (table : List (List String)) : List (ℕ × String) :=
  (table.take 5).foldl addRowHeaders []

/-- Header predicate of the first income-statement priority:
contains both "당" and "누적" after space removal. -/
def incomeP1 (h : String) : Bool :=
  strContains (removeSpaces h) "당" && strContains (removeSpaces h) "누적"

/-- Header predicate of the second income-statement priority:
contains "당분기" or "당기" but not "3개월" after space removal. -/
def incomeP2 (h : String) : Bool :=
  (strContains (removeSpaces h) "당분기" || strContains (removeSpaces h) "당기") &&
  !(strContains (removeSpaces h) "3개월")

/-- Header predicate of the balance-sheet rule. -/
def balanceP (h : String) : Bool :=
  ["당분기말", "당기말", "당분기", "당기"].any
    (fun kw => strContains (removeSpaces h) kw)

/-- `re.search(r'제\s*\d+\s*기', header)` as a boolean. -/
def hasFiscalPeriod : List Char → Bool
  | [] => false
  | c :: rest =>
    (if c = '제' then
      let r1 := rest.dropWhile pySpace
      let digits := r1.takeWhile isDigitCh
      if digits = [] then false
      else
        match (r1.dropWhile isDigitCh).dropWhile pySpace with
        | '기' :: _ => true
        | _ => false
    else false) || hasFiscalPeriod rest

/-- The shared tail of `_find_value_column_index`: balance-sheet keyword
search, then the fiscal-period pattern, then the default column 1. -/
def balanceRuleIndex (hs : List (ℕ × String)) : ℕ :=
  match hs.find? (fun p => balanceP p.2) with
  | some p => p.1
  | none =>
    match hs.find? (fun p => hasFiscalPeriod p.2.data) with
    | some p => p.1
    | none => 1

/-- `PDFExtractionService._find_value_column_index`. -/
def find_value_column_index (table : List (List String)) (statement_type : String) : ℕ :=
  if table.length < 2 then 1
  else
    let hs := buildColumnHeaders table
    if statement_type = "income_statement" then
      match hs.find? (fun p => incomeP1 p.2) with
      | some p => p.1
      | none =>
        match hs.find? (fun p => incomeP2 p.2) with
        | some p => p.1
        | none => balanceRuleIndex hs
    else balanceRuleIndex hs

/-! ## Table Parser (`_parse_financial_table`) -/

/-- Total cell access, `""` out of range (Python indexing is always guarded
by a length test in the embedded code). -/
def cellAt : List String → ℕ → String
  | [], _ => ""
  | c :: _, 0 => c
  | _ :: rest, n + 1 => cellAt rest n

/-- The raw value string chosen for a row: the value column when in range
and non-empty, else the second column when non-empty, else `""`. -/
def rowValueStr (row : List String) (vIdx : ℕ) : String :=
  if vIdx < row.length ∧ cellAt row vIdx ≠ "" then stripS (cellAt row vIdx)
  else if 1 < row.length ∧ cellAt row 1 ≠ "" then stripS (cellAt row 1)
  else ""

/-- The body of the row loop of `_parse_financial_table`, acting on the
accumulated dictionary (`stripS (cellAt row 0)` is the stripped raw label,
`rowValueStr row vIdx` the chosen raw value string). -/
def processRow (parsed : Dict ℚ) (row : List String) (vIdx : ℕ) : Dict ℚ :=
  if row.length < 2 then parsed
  else if stripS (cellAt row 0) = "" then parsed
  else if is_notes_row (stripS (cellAt row 0)) then parsed
  else if clean_item_name (stripS (cellAt row 0)) = "" then parsed
  else if rowValueStr row vIdx = "" ∨ rowValueStr row vIdx = "0" then parsed
  else if parse_financial_value (rowValueStr row vIdx) ≠ 0 ∨
      rowValueStr row vIdx ∈ ["0", "0.0", "-"] then
    if is_aggregate_row (clean_item_name (stripS (cellAt row 0))) then
      setKey parsed (clean_item_name (stripS (cellAt row 0)))
        (parse_financial_value (rowValueStr row vIdx))
    else if hasKey parsed (clean_item_name (stripS (cellAt row 0))) then parsed
    else parsed ++ [(clean_item_name (stripS (cellAt row 0)),
      parse_financial_value (rowValueStr row vIdx))]
  else parsed

/-- `PDFExtractionService._parse_financial_table`. -/
def parse_financial_table (table : List (List String)) (statement_type : String) : Dict ℚ :=
  let vIdx := find_value_column_index table statement_type
  table.foldl (fun d row => processRow d row vIdx) []

/-! ## Balance-sheet total derivation
(`PDFExtractionService._calculate_missing_balance_sheet_totals`) -/

/-- Python truthiness of the `"k" not in data or data.get("k", 0) == 0`
guard. -/
def missingOrZero (d : Dict ℚ) (k : String) : Bool :=
  !(hasKey d k) || (getD0 d k == 0)

/-- `PDFExtractionService._calculate_missing_balance_sheet_totals`. -/
def calculate_missing_balance_sheet_totals (d0 : Dict ℚ) : Dict ℚ :=
  let d1 :=
    if missingOrZero d0 "total_assets" then
      let cur := getD0 d0 "current_assets"
      let ncur := getD0 d0 "non_current_assets"
      if 0 < cur ∨ 0 < ncur then setKey d0 "total_assets" (qadd cur ncur) else d0
    else d0
  let d2 :=
    if missingOrZero d1 "total_assets" then
      let liab := getD0 d1 "total_liabilities"
      let eqty := getD0 d1 "total_equity"
      if 0 < liab ∧ 0 < eqty then setKey d1 "total_assets" (qadd liab eqty) else d1
    else d1
  let d3 :=
    if missingOrZero d2 "total_liabilities" then
      let cur := getD0 d2 "current_liabilities"
      let ncur := getD0 d2 "non_current_liabilities"
      if 0 < cur ∨ 0 < ncur then setKey d2 "total_liabilities" (qadd cur ncur) else d2
    else d2
  d3

/-! ## XBRL balance-sheet derivation
(`XBRLExtractionService._validate_balance_sheet`) -/

/-- The total-assets block of `XBRLExtractionService._validate_balance_sheet`:
`current + non_current` under the Python truthiness guard
`if current or non_current`. -/
def xbrl_total_assets_step (d : Dict ℚ) : Dict ℚ :=
  if missingOrZero d "total_assets" then
    let cur := getD0 d "current_assets"
    let ncur := getD0 d "non_current_assets"
    if cur ≠ 0 ∨ ncur ≠ 0 then setKey d "total_assets" (qadd cur ncur) else d
  else d

/-- The total-liabilities block of `_validate_balance_sheet`. -/
def xbrl_total_liabilities_step (d : Dict ℚ) : Dict ℚ :=
  if missingOrZero d "total_liabilities" then
    let cur := getD0 d "current_liabilities"
    let ncur := getD0 d "non_current_liabilities"
    if cur ≠ 0 ∨ ncur ≠ 0 then setKey d "total_liabilities" (qadd cur ncur) else d
  else d

/-- The total-equity block of `_validate_balance_sheet`: the accounting
identity derives `total_equity = total_assets - total_liabilities` here
(`total_assets` itself is never derived from the identity on this path). -/
def xbrl_total_equity_step (d : Dict ℚ) : Dict ℚ :=
  if missingOrZero d "total_equity" then
    let assets := getD0 d "total_assets"
    let liab := getD0 d "total_liabilities"
    if assets ≠ 0 ∧ liab ≠ 0 then setKey d "total_equity" (qsub assets liab) else d
  else d

/-- The current-assets estimation block of `_validate_balance_sheet`. -/
def xbrl_current_assets_step (d : Dict ℚ) : Dict ℚ :=
  if missingOrZero d "current_assets" then
    let total := getD0 d "total_assets"
    let ncur := getD0 d "non_current_assets"
    if total ≠ 0 ∧ ncur ≠ 0 then setKey d "current_assets" (qsub total ncur) else d
  else d

/-- The current-liabilities estimation block of `_validate_balance_sheet`. -/
def xbrl_current_liabilities_step (d : Dict ℚ) : Dict ℚ :=
  if missingOrZero d "current_liabilities" then
    let total := getD0 d "total_liabilities"
    let ncur := getD0 d "non_current_liabilities"
    if total ≠ 0 ∧ ncur ≠ 0 then setKey d "current_liabilities" (qsub total ncur) else d
  else d

/-- The inventory default of `_validate_balance_sheet`. -/
def xbrl_inventory_step (d : Dict ℚ) : Dict ℚ :=
  if !(hasKey d "inventory") then setKey d "inventory" 0 else d

/-- `XBRLExtractionService._validate_balance_sheet` (the balance-sheet
normalizer's derivation step of the XBRL path). -/
def xbrl_validate_balance_sheet (d : Dict ℚ) : Dict ℚ :=
  xbrl_inventory_step (xbrl_current_liabilities_step (xbrl_current_assets_step
    (xbrl_total_equity_step (xbrl_total_liabilities_step (xbrl_total_assets_step d)))))

/-! ## XBRL income-statement derivation
(`XBRLExtractionService._validate_income_statement`) -/

/-- The gross-profit block of
`XBRLExtractionService._validate_income_statement`. -/
def gross_profit_step (d0 : Dict ℚ) : Dict ℚ :=
  if !(hasKey d0 "gross_profit") then
    let rev := getD0 d0 "revenue"
    let cost := getD0 d0 "cost_of_sales"
    if rev ≠ 0 then setKey d0 "gross_profit" (qsub rev cost) else d0
  else d0

/-- The net-income block of
`XBRLExtractionService._validate_income_statement`. -/
def net_income_step (d1 : Dict ℚ) : Dict ℚ :=
  if missingOrZero d1 "net_income" then
    let ibt := getD0 d1 "income_before_tax"
    let tax := getD0 d1 "income_tax_expense"
    if ibt ≠ 0 then setKey d1 "net_income" (qsub ibt tax)
    else
      let oi := getD0 d1 "operating_income"
      if oi ≠ 0 ∧ !(hasKey d1 "net_income") then setKey d1 "net_income" oi
      else d1
  else d1

/-- `XBRLExtractionService._validate_income_statement` (the income-statement
normalizer's derivation step of the XBRL path). -/
def validate_income_statement (d0 : Dict ℚ) : Dict ℚ :=
  net_income_step (gross_profit_step d0)

/-! ## FinancialRatio domain entity (`financial_ratio.py`) -/

structure FinancialRatio where
  statement_id : ℤ
  ratio_type : String
  ratio_value : ℚ
deriving DecidableEq, Repr

def VALID_RATIO_TYPES : List String :=
  ["ROA", "ROE", "ROI", "DEBT_RATIO", "CURRENT_RATIO", "QUICK_RATIO",
   "PROFIT_MARGIN", "OPERATING_MARGIN", "ASSET_TURNOVER", "EQUITY_MULTIPLIER"]

def percentageRatios : List String :=
  ["ROA", "ROE", "ROI", "PROFIT_MARGIN", "OPERATING_MARGIN"]

def positiveRatios : List String :=
  ["CURRENT_RATIO", "QUICK_RATIO", "ASSET_TURNOVER", "EQUITY_MULTIPLIER"]

/-- `FinancialRatio._validate_ratio_bounds` (raise modelled as `.error`). -/
def validate_ratio_bounds (t : String) (v : ℚ) : Except String Unit :=
  if percentageRatios.contains t ∧ (v < -100 ∨ 500 < v) then
    .error "percentage ratio outside reasonable bounds"
  else if positiveRatios.contains t ∧ v < 0 then
    .error "ratio must be positive"
  else if positiveRatios.contains t ∧ 1000 < v then
    .error "ratio value seems unreasonably high"
  else if t = "DEBT_RATIO" ∧ (v < 0 ∨ 10 < v) then
    .error "Debt ratio outside reasonable bounds"
  else .ok ()

/-- `FinancialRatio.__init__` including `_validate` (construction either
yields the entity or raises). -/
def mkFinancialRatio (sid : ℤ) (t : String) (v : ℚ) : Except String FinancialRatio :=
  if !(VALID_RATIO_TYPES.contains t) then .error "Invalid ratio type"
  else if sid < 0 then .error "Statement ID cannot be negative or None"
  else
    match validate_ratio_bounds t v with
    | .ok _ => .ok ⟨sid, t, v⟩
    | .error e => .error e

/-! ## Ratio Calculator (`ratio_calculation_service.py`) -/

/-- Round `q * m` (`m > 0`) to the nearest integer, ties to even: the
scaled core of Python's `round(x, 4)` on the exact-rational model of the
float values. -/
def roundHalfEvenScaled (q : ℚ) (m : ℤ) : ℤ :=
  let x := q.num * m
  let d := (q.den : ℤ)
  let f := Int.fdiv x d
  let rem := x - f * d
  if 2 * rem < d then f
  else if d < 2 * rem then f + 1
  else if f % 2 = 0 then f else f + 1

/-- Python `round(x, 4)` (round-half-even at the fourth decimal). -/
def round4 (q : ℚ) : ℚ := Rat.divInt (roundHalfEvenScaled q 10000) 10000

/-- The extracted financial data handed to the calculation service. -/
structure FinancialData where
  balance_sheet : Dict ℚ
  income_statement : Dict ℚ

/-- One guarded `ratios.append(FinancialRatio(...))` step: skipped when the
guard is false, failing the whole category when construction raises. -/
def addRatio (cond : Prop) [Decidable cond] (t : String) (v : ℚ)
    (acc : List FinancialRatio) : Except String (List FinancialRatio) :=
  if cond then (mkFinancialRatio 0 t v).map (fun r => acc ++ [r]) else .ok acc

/-- `RatioCalculationService.calculate_profitability_ratios`. -/
def calculate_profitability_ratios (fd : FinancialData) :
    Except String (List FinancialRatio) :=
  let net_income := getD0 fd.income_statement "net_income"
  let total_assets := getD0 fd.balance_sheet "total_assets"
  let total_equity := getD0 fd.balance_sheet "total_equity"
  let revenue := getD0 fd.income_statement "revenue"
  let operating_income := getD0 fd.income_statement "operating_income"
  do
    let a1 ← addRatio (0 < total_assets) "ROA"
      (round4 (qmul (qdiv net_income total_assets) 100)) []
    let a2 ← addRatio (0 < total_equity) "ROE"
      (round4 (qmul (qdiv net_income total_equity) 100)) a1
    let a3 ← addRatio (0 < revenue) "PROFIT_MARGIN"
      (round4 (qmul (qdiv net_income revenue) 100)) a2
    addRatio (0 < revenue) "OPERATING_MARGIN"
      (round4 (qmul (qdiv operating_income revenue) 100)) a3

/-- `RatioCalculationService.calculate_liquidity_ratios`. -/
def calculate_liquidity_ratios (fd : FinancialData) :
    Except String (List FinancialRatio) :=
  let current_assets := getD0 fd.balance_sheet "current_assets"
  let current_liabilities := getD0 fd.balance_sheet "current_liabilities"
  let inventory := getD0 fd.balance_sheet "inventory"
  do
    let a1 ← addRatio (0 < current_liabilities) "CURRENT_RATIO"
      (round4 (qdiv current_assets current_liabilities)) []
    addRatio (0 < current_liabilities) "QUICK_RATIO"
      (round4 (qdiv (qsub current_assets inventory) current_liabilities)) a1

/-- `RatioCalculationService.calculate_leverage_ratios`. -/
def calculate_leverage_ratios (fd : FinancialData) :
    Except String (List FinancialRatio) :=
  let total_assets := getD0 fd.balance_sheet "total_assets"
  let total_liabilities := getD0 fd.balance_sheet "total_liabilities"
  let total_equity := getD0 fd.balance_sheet "total_equity"
  do
    let a1 ← addRatio (0 < total_assets) "DEBT_RATIO"
      (round4 (qdiv total_liabilities total_assets)) []
    addRatio (0 < total_equity) "EQUITY_MULTIPLIER"
      (round4 (qdiv total_assets total_equity)) a1

/-- `RatioCalculationService.calculate_efficiency_ratios`. -/
def calculate_efficiency_ratios (fd : FinancialData) :
    Except String (List FinancialRatio) :=
  let revenue := getD0 fd.income_statement "revenue"
  let total_assets := getD0 fd.balance_sheet "total_assets"
  addRatio (0 < total_assets) "ASSET_TURNOVER"
    (round4 (qdiv revenue total_assets)) []

/-- The `try/except CalculationError` wrapper of `calculate_all_ratios`:
the ratios of a successful category, nothing for a failed one. -/
def succeededRatios (r : Except String (List FinancialRatio)) : List FinancialRatio :=
  match r with
  | .ok l => l
  | .error _ => []

/-- The ratios `calculate_all_ratios` collects before its final checks
("the ratios of the categories that succeeded"). -/
def collectedRatios (fd : FinancialData) : List FinancialRatio :=
  succeededRatios (calculate_profitability_ratios fd) ++
  succeededRatios (calculate_liquidity_ratios fd) ++
  succeededRatios (calculate_leverage_ratios fd) ++
  succeededRatios (calculate_efficiency_ratios fd)

def setStatementId (sid : ℤ) (r : FinancialRatio) : FinancialRatio :=
  { r with statement_id := sid }

/-- `RatioCalculationService.calculate_all_ratios`. -/
def calculate_all_ratios (fd : FinancialData) (statement_id : ℤ)
    (skip_statement_id_validation : Bool) : Except String (List FinancialRatio) :=
  let allRatios := (collectedRatios fd).map (setStatementId statement_id)
  if allRatios.length = 0 then
    .error "Failed to calculate any financial ratios"
  else if !skip_statement_id_validation &&
      allRatios.any (fun r => decide (r.statement_id ≤ 0)) then
    .error "Ratio has invalid statement_id"
  else .ok allRatios

/-- Python truthiness of an `Except` result (`True` on normal return). -/
def exceptOk (r : Except String α) : Bool :=
  match r with
  | .ok _ => true
  | .error _ => false

/-! ## Pipeline Validator (`pipeline_validator.py`, stage 1→2 gate) -/

def required_bs_items : List String := ["total_assets", "total_liabilities", "total_equity"]

def required_is_items : List String := ["revenue", "operating_income", "net_income"]

/-- `PipelineValidator.validate_stage1_output`.  The Python function mutates
its dict argument and logs warnings; the embedding returns the outcome, the
dictionary as left after the call, and the emitted warning tags. -/
def validate_stage1_output (d0 : Dict (Dict ℚ)) :
    Except String Bool × Dict (Dict ℚ) × List String :=
  let insBS := !(hasKey d0 "balance_sheet")
  let d1 := if insBS then d0 ++ [("balance_sheet", [])] else d0
  let w1 : List String := if insBS then ["Missing balance_sheet section"] else []
  let insIS := !(hasKey d1 "income_statement")
  let d2 := if insIS then d1 ++ [("income_statement", [])] else d1
  let w2 : List String := if insIS then ["Missing income_statement section"] else []
  let bs := (lookupD d2 "balance_sheet").getD []
  let isd := (lookupD d2 "income_statement").getD []
  if bs = [] ∧ isd = [] then
    (.error "No financial data extracted - both balance sheet and income statement are empty",
     d2, w1 ++ w2)
  else
    let w3 := (required_bs_items.filter (fun k => hasKey bs k ∧ getD0 bs k < 0)).map
      (fun k => "Negative value for " ++ k)
    let missingBs := required_bs_items.filter (fun k => !(hasKey bs k))
    let w4 : List String := if missingBs ≠ [] then ["Missing balance sheet items"] else []
    let w5 : List String :=
      if hasKey bs "total_assets" ∧ hasKey bs "total_liabilities" ∧ hasKey bs "total_equity" ∧
          qmul (getD0 bs "total_assets") (Rat.divInt 1 100) <
            qabs (qsub (getD0 bs "total_assets")
              (qadd (getD0 bs "total_liabilities") (getD0 bs "total_equity")))
      then ["Balance sheet equation mismatch"] else []
    let missingIs := required_is_items.filter (fun k => !(hasKey isd k))
    let w6 : List String := if missingIs ≠ [] then ["Missing income statement items"] else []
    let w7 : List String :=
      if hasKey isd "revenue" ∧ getD0 isd "revenue" ≤ 0 then ["Revenue is not positive"] else []
    (.ok true, d2, w1 ++ w2 ++ w3 ++ w4 ++ w5 ++ w6 ++ w7)

/-- The bound demanded by the specification for each ratio kind:
percentage-style ratios in `[-100, 500]`, positive-only ratios in
`[0, 1000]`, the debt ratio in `[0, 10]`. -/
def ratioBoundsSpec (t : String) (v : ℚ) : Prop :=
  if t ∈ percentageRatios then -100 ≤ v ∧ v ≤ 500
  else if t ∈ positiveRatios then 0 ≤ v ∧ v ≤ 1000
  else 0 ≤ v ∧ v ≤ 10

/-- Balance-sheet mapping exhibiting the C3 counterexample: the asset
components are present with one positive value but sum to zero, while
liabilities and equity are both positive. -/
def c3data : Dict ℚ :=
  [("current_assets", 5), ("non_current_assets", -5),
   ("total_liabilities", 3), ("total_equity", 2)]

/-- Income-statement mapping exhibiting the C7 counterexample: `net_income`
present with value zero, no tax data, nonzero `operating_income`. -/
def c7data : Dict ℚ := [("net_income", 0), ("operating_income", 100)]

/-! ## Association-list lemmas -/

theorem lookupD_cons (p : String × α) (d : Dict α) (k : String) :
    lookupD (p :: d) k = if p.1 = k then some p.2 else lookupD d k := by
  obtain ⟨a, b⟩ := p
  by_cases h : a = k <;> simp [lookupD, List.find?_cons, h]

theorem hasKey_cons (p : String × α) (d : Dict α) (k : String) :
    hasKey (p :: d) k = (decide (p.1 = k) || hasKey d k) := by
  obtain ⟨a, b⟩ := p
  by_cases h : a = k <;> simp [hasKey, List.any_cons, h]

theorem lookupD_append (d1 d2 : Dict α) (k : String) :
    lookupD (d1 ++ d2) k =
      match lookupD d1 k with
      | some v => some v
      | none => lookupD d2 k := by
  induction d1 with
  | nil => simp [lookupD]
  | cons p d1 ih =>
    rw [List.cons_append, lookupD_cons, lookupD_cons]
    by_cases h : p.1 = k <;> simp [h, ih]

theorem hasKey_false_iff (d : Dict α) (k : String) :
    hasKey d k = false ↔ lookupD d k = none := by
  induction d with
  | nil => simp [hasKey, lookupD]
  | cons p d ih =>
    rw [hasKey_cons, lookupD_cons]
    by_cases h : p.1 = k <;> simp [h, ih]

theorem lookupD_map_set (d : Dict α) (k : String) (v : α) (hk : hasKey d k = true) :
    lookupD (d.map (fun p => if p.1 == k then (k, v) else p)) k = some v := by
  induction d with
  | nil => simp [hasKey] at hk
  | cons p d ih =>
    rw [hasKey_cons] at hk
    by_cases h : p.1 = k
    · simp [List.map_cons, h, lookupD_cons]
    · have hb : (p.1 == k) = false := by simp [h]
      rw [List.map_cons, hb]
      simp only [Bool.false_eq_true, if_false]
      rw [lookupD_cons, if_neg h]
      exact ih (by simpa [h] using hk)

theorem lookupD_map_set_ne (d : Dict α) (k k' : String) (v : α) (hne : k' ≠ k) :
    lookupD (d.map (fun p => if p.1 == k then (k, v) else p)) k' = lookupD d k' := by
  induction d with
  | nil => simp [lookupD]
  | cons p d ih =>
    by_cases h : p.1 = k
    · have hb : (p.1 == k) = true := by simp [h]
      rw [List.map_cons, hb]
      simp only [if_true]
      rw [lookupD_cons, lookupD_cons, if_neg (fun hh => hne hh.symm),
        if_neg (fun hh => hne (h ▸ hh).symm)]
      exact ih
    · have hb : (p.1 == k) = false := by simp [h]
      rw [List.map_cons, hb]
      simp only [Bool.false_eq_true, if_false]
      rw [lookupD_cons, lookupD_cons]
      by_cases hc : p.1 = k'
      · simp [hc]
      · rw [if_neg hc, if_neg hc]
        exact ih

theorem lookupD_setKey_self (d : Dict α) (k : String) (v : α) :
    lookupD (setKey d k v) k = some v := by
  unfold setKey
  cases h : hasKey d k with
  | true => simp only [if_true]; exact lookupD_map_set d k v h
  | false =>
    simp only [Bool.false_eq_true, if_false]
    rw [lookupD_append, (hasKey_false_iff d k).mp h]
    simp [lookupD_cons]

theorem lookupD_setKey_ne (d : Dict α) (k k' : String) (v : α) (hne : k' ≠ k) :
    lookupD (setKey d k v) k' = lookupD d k' := by
  unfold setKey
  cases h : hasKey d k with
  | true => simp only [if_true]; exact lookupD_map_set_ne d k k' v hne
  | false =>
    simp only [Bool.false_eq_true, if_false]
    rw [lookupD_append]
    cases hc : lookupD d k' with
    | some w => simp
    | none => rw [lookupD_cons, if_neg (fun hh => hne hh.symm)]; simp [lookupD]

theorem getD0_setKey_self (d : Dict ℚ) (k : String) (v : ℚ) :
    getD0 (setKey d k v) k = v := by
  simp [getD0, lookupD_setKey_self]

theorem getD0_setKey_ne (d : Dict ℚ) (k k' : String) (v : ℚ) (hne : k' ≠ k) :
    getD0 (setKey d k v) k' = getD0 d k' := by
  simp [getD0, lookupD_setKey_ne d k k' v hne]

theorem hasKey_setKey_ne (d : Dict α) (k k' : String) (v : α) (hne : k' ≠ k) :
    hasKey (setKey d k v) k' = hasKey d k' := by
  cases h : hasKey d k' with
  | true =>
    by_contra hc
    have h2 := (hasKey_false_iff (setKey d k v) k').mp (by simpa using hc)
    rw [lookupD_setKey_ne d k k' v hne] at h2
    rw [(hasKey_false_iff d k').mpr h2] at h
    exact Bool.false_ne_true h
  | false =>
    have h2 := (hasKey_false_iff d k').mp h
    exact (hasKey_false_iff (setKey d k v) k').mpr
      (by rw [lookupD_setKey_ne d k k' v hne]; exact h2)

/-! ## The computable rational primitives agree with the standard operations -/

theorem den_cast_ne (q : ℚ) : (q.den : ℚ) ≠ 0 := Nat.cast_ne_zero.mpr q.den_nz

theorem num_cast_eq (q : ℚ) : (q.num : ℚ) = q * (q.den : ℚ) := by
  have h := Rat.num_div_den q
  rw [div_eq_iff (den_cast_ne q)] at h
  exact h

theorem qadd_eq (a b : ℚ) : qadd a b = a + b := by
  rw [qadd, Rat.divInt_eq_div,
    div_eq_iff (by push_cast; exact mul_ne_zero (den_cast_ne a) (den_cast_ne b))]
  push_cast
  rw [num_cast_eq, num_cast_eq]
  ring

theorem qsub_eq (a b : ℚ) : qsub a b = a - b := by
  rw [qsub, Rat.divInt_eq_div,
    div_eq_iff (by push_cast; exact mul_ne_zero (den_cast_ne a) (den_cast_ne b))]
  push_cast
  rw [num_cast_eq, num_cast_eq]
  ring

theorem qmul_eq (a b : ℚ) : qmul a b = a * b := by
  rw [qmul, Rat.divInt_eq_div,
    div_eq_iff (by push_cast; exact mul_ne_zero (den_cast_ne a) (den_cast_ne b))]
  push_cast
  rw [num_cast_eq, num_cast_eq]
  ring

theorem qneg_eq (q : ℚ) : qneg q = -q := by
  rw [qneg, Rat.divInt_eq_div]
  push_cast
  rw [div_eq_iff (den_cast_ne q), num_cast_eq]
  ring

theorem qdiv_eq (a b : ℚ) : qdiv a b = a / b := by
  by_cases hb0 : b = 0
  · subst hb0
    simp [qdiv]
  · have hbn : (b.num : ℚ) ≠ 0 := by simpa using Rat.num_ne_zero.mpr hb0
    rw [qdiv, Rat.divInt_eq_div,
      div_eq_iff (by push_cast; exact mul_ne_zero hbn (den_cast_ne a))]
    push_cast
    rw [num_cast_eq, num_cast_eq, div_mul_eq_mul_div, eq_div_iff hb0]
    ring

theorem qabs_eq (q : ℚ) : qabs q = |q| := by
  rw [qabs]
  by_cases h : q < 0
  · rw [if_pos h, qneg_eq, abs_of_neg h]
  · rw [if_neg h, abs_of_nonneg (not_lt.mp h)]

/-! ## Claim C1 — graceful partial ratio calculation -/

/-- **C1 (counterexample)**: the claim that `calculate_all_ratios` raises
only when zero ratios could be computed fails at `statement_id = 0` (its
default) with validation enabled: on data yielding three ratios the call
still raises, because the final statement-id validation rejects
`statement_id ≤ 0`. -/
theorem c1_counterexample :
    exceptOk (calculate_all_ratios ⟨[("total_assets", 100)], [("net_income", 50)]⟩ 0 false) = false ∧
    collectedRatios ⟨[("total_assets", 100)], [("net_income", 50)]⟩ ≠ [] := by decide

/-- **C1 (amended)**: provided the statement id is positive or statement-id
validation is skipped, `calculate_all_ratios` is tolerant of partial
failure: it raises exactly when zero ratios were computed across the four
independently computed categories, and otherwise returns the concatenated
ratios of the categories that succeeded, with the statement id set on
each. -/
theorem c1_partial_failure (fd : FinancialData) (sid : ℤ) (skip : Bool)
    (h : 0 < sid ∨ skip = true) :
    (exceptOk (calculate_all_ratios fd sid skip) = false ↔ collectedRatios fd = []) ∧
    (collectedRatios fd ≠ [] →
      calculate_all_ratios fd sid skip = .ok ((collectedRatios fd).map (setStatementId sid))) := by
  unfold calculate_all_ratios
  by_cases hc : collectedRatios fd = []
  · rw [hc]
    simp [exceptOk]
  · have hlen : ¬ ((collectedRatios fd).map (setStatementId sid)).length = 0 := by
      simpa [List.length_eq_zero] using hc
    rw [if_neg hlen]
    have hany : (!skip && ((collectedRatios fd).map (setStatementId sid)).any
        (fun r => decide (r.statement_id ≤ 0))) = false := by
      rcases h with hsid | hskip
      · have hall : ((collectedRatios fd).map (setStatementId sid)).any
            (fun r => decide (r.statement_id ≤ 0)) = false := by
          rw [List.any_eq_false]
          intro r hr
          rcases List.mem_map.mp hr with ⟨r0, _, rfl⟩
          simp [setStatementId, not_le.mpr hsid]
        simp [hall]
      · rw [hskip]
        simp
    rw [if_neg (show ¬ ((!skip && ((collectedRatios fd).map (setStatementId sid)).any
        (fun r => decide (r.statement_id ≤ 0))) = true) by
      rw [hany]; exact Bool.false_ne_true)]
    exact ⟨by simp [exceptOk, hc], fun _ => rfl⟩

/-- Witness for the amended C1: with a positive statement id the call
returns exactly the successfully computed ratios, statement id set. -/
theorem c1_partial_failure_witness :
    ((0 : ℤ) < 7 ∨ false = true) ∧
    calculate_all_ratios ⟨[("total_assets", 100)], [("net_income", 50)]⟩ 7 false =
      .ok ((collectedRatios ⟨[("total_assets", 100)], [("net_income", 50)]⟩).map
        (setStatementId 7)) :=
  ⟨Or.inl (by decide),
   (c1_partial_failure ⟨[("total_assets", 100)], [("net_income", 50)]⟩ 7 false
     (Or.inl (by decide))).2 (by decide)⟩

/-! ## Claim C2 — FinancialRatio bounds enforcement -/

/-- Construction success of a `FinancialRatio` is equivalent to the bounds
validator succeeding, for a valid kind and non-negative statement id. -/
theorem exceptOk_mkRatio (t : String) (v : ℚ) (sid : ℤ) (hs : ¬ sid < 0)
    (hvalid : VALID_RATIO_TYPES.contains t = true) :
    (exceptOk (mkFinancialRatio sid t v) = true ↔ validate_ratio_bounds t v = .ok ()) := by
  unfold mkFinancialRatio
  rw [if_neg (by simp only [hvalid]; decide), if_neg hs]
  cases hb : validate_ratio_bounds t v with
  | ok u => cases u; simp [exceptOk]
  | error e => simp [exceptOk]

/-- The bounds validator succeeds exactly on the specification's
kind-specific intervals. -/
theorem validate_bounds_ok_iff (t : String) (ht : t ∈ VALID_RATIO_TYPES) (v : ℚ) :
    validate_ratio_bounds t v = .ok () ↔ ratioBoundsSpec t v := by
  fin_cases ht <;>
    (unfold validate_ratio_bounds ratioBoundsSpec
     simp +decide only [percentageRatios, positiveRatios, List.mem_cons,
       List.mem_singleton, true_and, false_and, if_false, if_true]
     split_ifs with h1 h2 <;>
       simp only [reduceCtorEq, false_iff, true_iff] <;>
       first
         | (rintro ⟨ha, hb⟩
            rcases h1 with h | h <;> linarith)
         | (rintro ⟨ha, hb⟩
            linarith)
         | (push_neg at h1
            constructor <;> linarith [h1.1, h1.2])
         | (push_neg at h1 h2
            constructor <;> linarith))

/-- **C2**: for a valid ratio kind and non-negative statement id,
constructing a `FinancialRatio` raises if and only if its value violates the
kind-specific bounds — it succeeds exactly when the value lies in
`[-100, 500]` for the percentage ratios (ROA/ROE/ROI/margins), in
`[0, 1000]` for the positive-only ratios (current/quick/turnover/multiplier),
and in `[0, 10]` for the debt ratio. -/
theorem c2_ratio_bounds (t : String) (v : ℚ) (sid : ℤ)
    (hsid : 0 ≤ sid) (ht : t ∈ VALID_RATIO_TYPES) :
    exceptOk (mkFinancialRatio sid t v) = true ↔ ratioBoundsSpec t v := by
  rw [exceptOk_mkRatio t v sid (not_lt.mpr hsid) (by simpa using ht)]
  exact validate_bounds_ok_iff t ht v

/-- Witness for C2: at the claim's concrete inputs, constructing ROA with
value 600 raises and with value 50 does not, matching the proved
equivalence. -/
theorem c2_ratio_bounds_witness :
    (0 : ℤ) ≤ 3 ∧ "ROA" ∈ VALID_RATIO_TYPES ∧
    (exceptOk (mkFinancialRatio 3 "ROA" 50) = true ↔ ratioBoundsSpec "ROA" 50) ∧
    (exceptOk (mkFinancialRatio 3 "ROA" 600) = true ↔ ratioBoundsSpec "ROA" 600) ∧
    exceptOk (mkFinancialRatio 3 "ROA" 50) = true ∧
    exceptOk (mkFinancialRatio 3 "ROA" 600) = false :=
  ⟨by decide, by decide,
   c2_ratio_bounds "ROA" 50 3 (by decide) (by decide),
   c2_ratio_bounds "ROA" 600 3 (by decide) (by decide),
   by decide, by decide⟩

/-! ## Claim C9 — Value Parser totality -/

/-- **C9**: the value parser is total — it is a function returning a number
for every string; `parse("") = 0`, `parse("-") = 0`, and whenever the
cleaned residual string is not a valid number, the parser falls back to the
first numeric substring (regex `-?[\d.]+`), returning `0` when none is
found or when the extracted substring itself fails to parse. -/
theorem c9_parser_totality :
    parse_financial_value "" = 0 ∧
    parse_financial_value "-" = 0 ∧
    ∀ s : String, pyFloatQ (pfvCleaned s.data) = none →
      parse_financial_value s =
        (firstNumericSub (pfvCleaned s.data)).elim 0 (fun t => (pyFloatQ t).getD 0) := by
  refine ⟨by decide, by decide, ?_⟩
  intro s h
  unfold parse_financial_value pfvList
  by_cases h0 : s.data = []
  · rw [if_pos h0, h0]
    rfl
  · rw [if_neg h0]
    by_cases h1 : stripChars (s.data.map (fun c => if c = '\n' then ' ' else c)) = ['-'] ∨
        stripChars (s.data.map (fun c => if c = '\n' then ' ' else c)) = ['—'] ∨
        stripChars (s.data.map (fun c => if c = '\n' then ' ' else c)) = ['－'] ∨
        stripChars (s.data.map (fun c => if c = '\n' then ' ' else c)) = []
    · rw [if_pos h1]
      rcases h1 with h1 | h1 | h1 | h1 <;> simp [pfvCleaned, h1] <;> rfl
    · rw [if_neg h1]
      by_cases h2 : pfvCleaned s.data = []
      · rw [if_pos h2, h2]
        rfl
      · rw [if_neg h2, h]
        cases hf : firstNumericSub (pfvCleaned s.data) <;> simp [hf]

/-- Witness for C9: for the string `"abc12.5x"` the cleaned residual is not
a valid number and the parser returns the value of the first numeric
substring, `12.5`. -/
theorem c9_parser_totality_witness :
    pyFloatQ (pfvCleaned "abc12.5x".data) = none ∧
    parse_financial_value "abc12.5x" =
      (firstNumericSub (pfvCleaned "abc12.5x".data)).elim 0 (fun t => (pyFloatQ t).getD 0) ∧
    parse_financial_value "abc12.5x" = Rat.divInt 25 2 :=
  ⟨by decide, c9_parser_totality.2.2 "abc12.5x" (by decide), by decide⟩

/-! ## Claim C3 — derivation of missing balance-sheet totals -/

/-- Preservation lemma: the blocks following the total-assets block of the
XBRL balance-sheet derivation never touch the `total_assets` key. -/
theorem lookupD_xbrl_after_total_assets (d : Dict ℚ) :
    lookupD (xbrl_inventory_step (xbrl_current_liabilities_step (xbrl_current_assets_step
      (xbrl_total_equity_step (xbrl_total_liabilities_step d))))) "total_assets" =
    lookupD d "total_assets" := by
  have htl : lookupD (xbrl_total_liabilities_step d) "total_assets" = lookupD d "total_assets" := by
    unfold xbrl_total_liabilities_step
    dsimp only
    split_ifs <;> first | exact lookupD_setKey_ne _ _ _ _ (by decide) | rfl
  have hte : ∀ d2 : Dict ℚ,
      lookupD (xbrl_total_equity_step d2) "total_assets" = lookupD d2 "total_assets" := by
    intro d2
    unfold xbrl_total_equity_step
    dsimp only
    split_ifs <;> first | exact lookupD_setKey_ne _ _ _ _ (by decide) | rfl
  have hca : ∀ d2 : Dict ℚ,
      lookupD (xbrl_current_assets_step d2) "total_assets" = lookupD d2 "total_assets" := by
    intro d2
    unfold xbrl_current_assets_step
    dsimp only
    split_ifs <;> first | exact lookupD_setKey_ne _ _ _ _ (by decide) | rfl
  have hcl : ∀ d2 : Dict ℚ,
      lookupD (xbrl_current_liabilities_step d2) "total_assets" = lookupD d2 "total_assets" := by
    intro d2
    unfold xbrl_current_liabilities_step
    dsimp only
    split_ifs <;> first | exact lookupD_setKey_ne _ _ _ _ (by decide) | rfl
  have hinv : ∀ d2 : Dict ℚ,
      lookupD (xbrl_inventory_step d2) "total_assets" = lookupD d2 "total_assets" := by
    intro d2
    unfold xbrl_inventory_step
    split_ifs <;> first | exact lookupD_setKey_ne _ _ _ _ (by decide) | rfl
  rw [hinv, hcl, hca, hte, htl]

/-- **C3 (counterexample)**: in the PDF derivation, the claim that
`total_assets` becomes `current_assets + non_current_assets` whenever a
component is available fails when the components sum to zero: on `c3data`
(components `5` and `-5`, liabilities `3`, equity `2`) the
accounting-identity branch still fires, so `total_assets` ends up `5`, not
the components' sum `0`.  And in the XBRL derivation the accounting-identity
fallback of the claim does not exist at all: from `total_liabilities = 3`
and `total_equity = 2` alone, `_validate_balance_sheet` produces no
`total_assets` key. -/
theorem c3_counterexample :
    lookupD c3data "total_assets" = none ∧
    (0 < getD0 c3data "current_assets" ∨ 0 < getD0 c3data "non_current_assets") ∧
    lookupD (calculate_missing_balance_sheet_totals c3data) "total_assets" ≠
      some (getD0 c3data "current_assets" + getD0 c3data "non_current_assets") ∧
    hasKey (xbrl_validate_balance_sheet
      [("total_liabilities", (3 : ℚ)), ("total_equity", 2)]) "total_assets" = false := by
  refine ⟨by decide, by decide, ?_, by decide⟩
  rw [show getD0 c3data "current_assets" + getD0 c3data "non_current_assets" = 0 by
    rw [← qadd_eq]; decide]
  decide

/-- **C3 (amended)**: for a balance sheet in which `total_assets` is absent
or zero.  PDF derivation: `total_assets` becomes
`current_assets + non_current_assets` when at least one of the components is
positive and the sum is nonzero; when the components' sum is zero (or no
component is positive) and both `total_liabilities` and `total_equity` are
positive, the accounting identity `liabilities + equity` determines
`total_assets` instead.  XBRL derivation: `total_assets` becomes
`current_assets + non_current_assets` when at least one component is nonzero
(truthiness guard), and with both components zero `total_assets` is left
untouched — it is never derived from `liabilities + equity` on this path. -/
theorem c3_derivation (d : Dict ℚ)
    (h0 : lookupD d "total_assets" = none ∨ lookupD d "total_assets" = some 0) :
    ((0 < getD0 d "current_assets" ∨ 0 < getD0 d "non_current_assets") →
      getD0 d "current_assets" + getD0 d "non_current_assets" ≠ 0 →
      lookupD (calculate_missing_balance_sheet_totals d) "total_assets" =
        some (getD0 d "current_assets" + getD0 d "non_current_assets")) ∧
    ((0 < getD0 d "current_assets" ∨ 0 < getD0 d "non_current_assets") →
      getD0 d "current_assets" + getD0 d "non_current_assets" = 0 →
      0 < getD0 d "total_liabilities" → 0 < getD0 d "total_equity" →
      lookupD (calculate_missing_balance_sheet_totals d) "total_assets" =
        some (getD0 d "total_liabilities" + getD0 d "total_equity")) ∧
    (¬ (0 < getD0 d "current_assets" ∨ 0 < getD0 d "non_current_assets") →
      0 < getD0 d "total_liabilities" → 0 < getD0 d "total_equity" →
      lookupD (calculate_missing_balance_sheet_totals d) "total_assets" =
        some (getD0 d "total_liabilities" + getD0 d "total_equity")) ∧
    ((getD0 d "current_assets" ≠ 0 ∨ getD0 d "non_current_assets" ≠ 0) →
      lookupD (xbrl_validate_balance_sheet d) "total_assets" =
        some (getD0 d "current_assets" + getD0 d "non_current_assets")) ∧
    (getD0 d "current_assets" = 0 → getD0 d "non_current_assets" = 0 →
      lookupD (xbrl_validate_balance_sheet d) "total_assets" =
        lookupD d "total_assets") := by
  have hmz : missingOrZero d "total_assets" = true := by
    rcases h0 with h | h
    · simp [missingOrZero, (hasKey_false_iff d "total_assets").mpr h]
    · simp [missingOrZero, getD0, h]
  have hne1 : "total_assets" ≠ "total_liabilities" := by decide
  refine ⟨?_, ?_, ?_, ?_, ?_⟩
  · intro hcomp hsum
    unfold calculate_missing_balance_sheet_totals
    simp only [hmz, if_true, if_pos hcomp]
    have hlook : lookupD (setKey d "total_assets"
        (qadd (getD0 d "current_assets") (getD0 d "non_current_assets"))) "total_assets" =
        some (qadd (getD0 d "current_assets") (getD0 d "non_current_assets")) :=
      lookupD_setKey_self _ _ _
    have hmz2 : missingOrZero (setKey d "total_assets"
        (qadd (getD0 d "current_assets") (getD0 d "non_current_assets"))) "total_assets" = false := by
      have hk : hasKey (setKey d "total_assets"
          (qadd (getD0 d "current_assets") (getD0 d "non_current_assets"))) "total_assets" = true := by
        by_contra hcon
        have := (hasKey_false_iff _ _).mp (by simpa using hcon)
        rw [hlook] at this
        exact Option.noConfusion this
      have hv : getD0 (setKey d "total_assets"
          (qadd (getD0 d "current_assets") (getD0 d "non_current_assets"))) "total_assets" ≠ 0 := by
        rw [getD0, hlook]
        simpa [qadd_eq] using hsum
      simp [missingOrZero, hk, hv]
    simp only [hmz2, Bool.false_eq_true, if_false]
    split_ifs with h3 h4 <;>
      first
        | rw [lookupD_setKey_ne _ _ _ _ (by decide), hlook, qadd_eq]
        | rw [hlook, qadd_eq]
  · intro hcomp hsum hl he
    unfold calculate_missing_balance_sheet_totals
    simp only [hmz, if_true, if_pos hcomp]
    have hlook : lookupD (setKey d "total_assets"
        (qadd (getD0 d "current_assets") (getD0 d "non_current_assets"))) "total_assets" =
        some (qadd (getD0 d "current_assets") (getD0 d "non_current_assets")) :=
      lookupD_setKey_self _ _ _
    have hmz2 : missingOrZero (setKey d "total_assets"
        (qadd (getD0 d "current_assets") (getD0 d "non_current_assets"))) "total_assets" = true := by
      have hv : getD0 (setKey d "total_assets"
          (qadd (getD0 d "current_assets") (getD0 d "non_current_assets"))) "total_assets" = 0 := by
        rw [getD0, hlook]
        simpa [qadd_eq] using hsum
      simp [missingOrZero, hv]
    simp only [hmz2, if_true]
    rw [getD0_setKey_ne _ _ _ _ (by decide), getD0_setKey_ne _ _ _ _ (by decide)]
    rw [if_pos (And.intro hl he)]
    split_ifs with h3 h4 <;>
      first
        | rw [lookupD_setKey_ne _ _ _ _ (by decide), lookupD_setKey_self, qadd_eq]
        | rw [lookupD_setKey_self, qadd_eq]
  · intro hcomp hl he
    unfold calculate_missing_balance_sheet_totals
    simp only [hmz, if_true, if_neg hcomp]
    rw [if_pos (And.intro hl he)]
    split_ifs with h3 h4 <;>
      first
        | rw [lookupD_setKey_ne _ _ _ _ (by decide), lookupD_setKey_self, qadd_eq]
        | rw [lookupD_setKey_self, qadd_eq]
  · intro hcomp
    unfold xbrl_validate_balance_sheet
    rw [lookupD_xbrl_after_total_assets]
    unfold xbrl_total_assets_step
    dsimp only
    rw [if_pos hmz, if_pos hcomp, lookupD_setKey_self, qadd_eq]
  · intro hc1 hc2
    have hstep : xbrl_total_assets_step d = d := by
      unfold xbrl_total_assets_step
      dsimp only
      by_cases hmzb : missingOrZero d "total_assets" = true
      · rw [if_pos hmzb, if_neg (fun hor => hor.elim (fun h => h hc1) (fun h => h hc2))]
      · rw [if_neg hmzb]
    unfold xbrl_validate_balance_sheet
    rw [hstep, lookupD_xbrl_after_total_assets]

/-- Witness for the amended C3, at the specification's own example: from
components `229440881` and `294218705` alone both derivations produce
`total_assets = 523659586`. -/
theorem c3_derivation_witness :
    lookupD (calculate_missing_balance_sheet_totals
      [("current_assets", (229440881 : ℚ)), ("non_current_assets", 294218705)])
      "total_assets" = some 523659586 ∧
    lookupD (xbrl_validate_balance_sheet
      [("current_assets", (229440881 : ℚ)), ("non_current_assets", 294218705)])
      "total_assets" = some 523659586 := by
  constructor
  · have h := (c3_derivation
      [("current_assets", (229440881 : ℚ)), ("non_current_assets", 294218705)]
      (Or.inl (by decide))).1 (Or.inl (by decide))
      (by rw [← qadd_eq]; decide)
    rw [h, show getD0 [("current_assets", (229440881 : ℚ)), ("non_current_assets", 294218705)]
        "current_assets" + getD0 [("current_assets", (229440881 : ℚ)),
        ("non_current_assets", 294218705)] "non_current_assets" = 523659586 by
      rw [← qadd_eq]; decide]
  · have h := (c3_derivation
      [("current_assets", (229440881 : ℚ)), ("non_current_assets", 294218705)]
      (Or.inl (by decide))).2.2.2.1 (Or.inl (by decide))
    rw [h, show getD0 [("current_assets", (229440881 : ℚ)), ("non_current_assets", 294218705)]
        "current_assets" + getD0 [("current_assets", (229440881 : ℚ)),
        ("non_current_assets", 294218705)] "non_current_assets" = 523659586 by
      rw [← qadd_eq]; decide]

/-! ## Claim C7 — net-income derivation of the income-statement normalizer -/

/-- The gross-profit block touches only the `gross_profit` key. -/
theorem lookupD_gross_profit_step (d : Dict ℚ) (k : String) (hk : k ≠ "gross_profit") :
    lookupD (gross_profit_step d) k = lookupD d k := by
  unfold gross_profit_step
  dsimp only
  split_ifs with h1 h2
  · exact lookupD_setKey_ne _ _ _ _ hk
  · rfl
  · rfl

/-- **C7 (counterexample)**: the claimed operating-income fallback does not
apply when `net_income` is present with value zero: on `c7data`
(`net_income = 0`, `operating_income = 100`, no tax data) the normalizer
leaves `net_income` at `0` instead of setting it to `operating_income`. -/
theorem c7_counterexample :
    lookupD c7data "net_income" = some 0 ∧
    getD0 c7data "income_before_tax" = 0 ∧
    getD0 c7data "operating_income" ≠ 0 ∧
    lookupD (validate_income_statement c7data) "net_income" ≠
      some (getD0 c7data "operating_income") := by decide

/-- **C7 (amended)**: for an income statement in which `net_income` is
absent or zero, the derivation sets `net_income` to
`income_before_tax − income_tax_expense` whenever `income_before_tax` is
nonzero; otherwise the `operating_income` fallback applies only when the
`net_income` key is entirely absent (not merely zero) and
`operating_income` is nonzero — a `net_income` present with value zero is
left unchanged. -/
theorem c7_net_income_derivation (d : Dict ℚ)
    (h0 : lookupD d "net_income" = none ∨ lookupD d "net_income" = some 0) :
    (getD0 d "income_before_tax" ≠ 0 →
      lookupD (validate_income_statement d) "net_income" =
        some (getD0 d "income_before_tax" - getD0 d "income_tax_expense")) ∧
    (getD0 d "income_before_tax" = 0 → lookupD d "net_income" = none →
      getD0 d "operating_income" ≠ 0 →
      lookupD (validate_income_statement d) "net_income" =
        some (getD0 d "operating_income")) ∧
    (getD0 d "income_before_tax" = 0 → lookupD d "net_income" = some 0 →
      lookupD (validate_income_statement d) "net_income" = some 0) := by
  have hni : lookupD (gross_profit_step d) "net_income" = lookupD d "net_income" :=
    lookupD_gross_profit_step d _ (by decide)
  have hibt : getD0 (gross_profit_step d) "income_before_tax" = getD0 d "income_before_tax" := by
    rw [getD0, lookupD_gross_profit_step d _ (by decide), getD0]
  have htax : getD0 (gross_profit_step d) "income_tax_expense" = getD0 d "income_tax_expense" := by
    rw [getD0, lookupD_gross_profit_step d _ (by decide), getD0]
  have hoi : getD0 (gross_profit_step d) "operating_income" = getD0 d "operating_income" := by
    rw [getD0, lookupD_gross_profit_step d _ (by decide), getD0]
  have hmz : missingOrZero (gross_profit_step d) "net_income" = true := by
    rcases h0 with h | h
    · simp [missingOrZero, (hasKey_false_iff _ "net_income").mpr (hni.trans h)]
    · simp [missingOrZero, getD0, hni.trans h]
  refine ⟨?_, ?_, ?_⟩
  · intro hibt0
    unfold validate_income_statement net_income_step
    simp only [hmz, if_true, hibt]
    rw [if_pos hibt0, lookupD_setKey_self, htax, qsub_eq]
  · intro hibt0 hnone hoi0
    unfold validate_income_statement net_income_step
    simp only [hmz, if_true, hibt]
    rw [if_neg (by simp [hibt0]), hoi,
      if_pos (And.intro hoi0 (by
        simp [(hasKey_false_iff _ "net_income").mpr (hni.trans hnone)])),
      lookupD_setKey_self]
  · intro hibt0 hzero
    unfold validate_income_statement net_income_step
    simp only [hmz, if_true, hibt]
    rw [if_neg (by simp [hibt0])]
    have hk : hasKey (gross_profit_step d) "net_income" = true := by
      by_contra hcon
      have := (hasKey_false_iff _ "net_income").mp (by simpa using hcon)
      rw [hni, hzero] at this
      exact Option.noConfusion this
    rw [if_neg (by simp [hk]), hni, hzero]

/-- Witness for the amended C7: with `income_before_tax = 120` and
`income_tax_expense = 20` the derivation records `net_income = 100`. -/
theorem c7_net_income_derivation_witness :
    lookupD (validate_income_statement
      [("income_before_tax", (120 : ℚ)), ("income_tax_expense", 20)]) "net_income" =
      some 100 := by
  have h := (c7_net_income_derivation
    [("income_before_tax", (120 : ℚ)), ("income_tax_expense", 20)]
    (Or.inl (by decide))).1 (by decide)
  rw [h, show getD0 [("income_before_tax", (120 : ℚ)), ("income_tax_expense", 20)]
      "income_before_tax" - getD0 [("income_before_tax", (120 : ℚ)),
      ("income_tax_expense", 20)] "income_tax_expense" = 100 by
    rw [← qsub_eq]; decide]

/-! ## Claim C10 — the stage 1→2 gate mutates its argument -/

theorem hasKey_append_ne (d : Dict α) (k k' : String) (v : α) (hne : k' ≠ k) :
    hasKey (d ++ [(k, v)]) k' = hasKey d k' := by
  induction d with
  | nil =>
    simp only [List.nil_append, hasKey, List.any_cons, List.any_nil, Bool.or_false]
    have : ¬ k = k' := fun h => hne h.symm
    simp [this]
  | cons p d ih =>
    rw [List.cons_append, hasKey_cons, hasKey_cons, ih]

theorem lookupD_append_ne (d : Dict α) (k k' : String) (v : α) (hne : k' ≠ k) :
    lookupD (d ++ [(k, v)]) k' = lookupD d k' := by
  rw [lookupD_append]
  cases h : lookupD d k' with
  | some w => rfl
  | none =>
    rw [lookupD_cons, if_neg (fun hh => hne hh.symm)]
    rfl

theorem lookupD_append_self (d : Dict α) (k : String) (v : α)
    (h : lookupD d k = none) :
    lookupD (d ++ [(k, v)]) k = some v := by
  rw [lookupD_append, h]
  simp [lookupD_cons]

/-- **C10**: `validate_stage1_output` mutates its argument: when the input
lacks a `balance_sheet` or `income_statement` key, the dictionary as left
after the call contains the missing key bound to an empty section — the
input is not left unchanged.  (The returned dictionary is the same in the
raising and non-raising branches, so this holds even when validation
fails.) -/
theorem c10_stage1_mutation (d : Dict (Dict ℚ)) :
    (lookupD d "balance_sheet" = none →
      lookupD (validate_stage1_output d).2.1 "balance_sheet" = some [] ∧
      (validate_stage1_output d).2.1 ≠ d) ∧
    (lookupD d "income_statement" = none →
      lookupD (validate_stage1_output d).2.1 "income_statement" = some []) := by
  constructor
  · intro hbs
    have h1 : hasKey d "balance_sheet" = false := (hasKey_false_iff _ _).mpr hbs
    have hsome : lookupD (validate_stage1_output d).2.1 "balance_sheet" = some [] := by
      unfold validate_stage1_output
      dsimp only
      rw [h1]
      simp only [Bool.not_false, if_true]
      split_ifs with h2 h3 <;>
        first
          | (rw [lookupD_append_ne _ _ _ _ (by decide)]
             exact lookupD_append_self d _ _ hbs)
          | exact lookupD_append_self d _ _ hbs
    refine ⟨hsome, fun heq => ?_⟩
    rw [heq, hbs] at hsome
    exact Option.noConfusion hsome
  · intro his
    unfold validate_stage1_output
    dsimp only
    by_cases h1 : hasKey d "balance_sheet"
    · rw [h1]
      have h2 : hasKey d "income_statement" = false := (hasKey_false_iff _ _).mpr his
      simp only [Bool.not_true, Bool.false_eq_true, if_false, h2, Bool.not_false, if_true]
      split_ifs <;> exact lookupD_append_self d _ _ his
    · rw [show hasKey d "balance_sheet" = false by simpa using h1]
      have h2 : hasKey (d ++ [("balance_sheet", [])]) "income_statement" = false := by
        rw [hasKey_append_ne _ _ _ _ (by decide)]
        exact (hasKey_false_iff _ _).mpr his
      simp only [Bool.not_false, if_true, h2]
      have his2 : lookupD (d ++ [("balance_sheet", ([] : Dict ℚ))]) "income_statement" = none := by
        rw [lookupD_append_ne _ _ _ _ (by decide)]
        exact his
      split_ifs <;> exact lookupD_append_self _ _ _ his2

/-! ## Claim C8 — the stage 1→2 gate raises only on fully empty data -/

/-- The outcome of the stage 1→2 gate depends only on whether both sections
are empty. -/
theorem stage1_result (d : Dict (Dict ℚ)) :
    (validate_stage1_output d).1 =
      if (lookupD d "balance_sheet").getD [] = [] ∧
          (lookupD d "income_statement").getD [] = []
      then .error "No financial data extracted - both balance sheet and income statement are empty"
      else .ok true := by
  unfold validate_stage1_output
  dsimp only
  by_cases h1 : hasKey d "balance_sheet"
  · by_cases h2 : hasKey d "income_statement"
    · simp only [h1, h2, Bool.not_true, Bool.false_eq_true, if_false]
      split_ifs <;> rfl
    · have h2f : hasKey d "income_statement" = false := by simpa using h2
      have his : lookupD d "income_statement" = none := (hasKey_false_iff _ _).mp h2f
      simp only [h1, Bool.not_true, Bool.false_eq_true, if_false, h2f, Bool.not_false, if_true]
      rw [lookupD_append_ne d "income_statement" "balance_sheet" [] (by decide),
        lookupD_append_self d "income_statement" [] his, his]
      simp only [Option.getD_some, Option.getD_none]
      split_ifs <;> rfl
  · have h1f : hasKey d "balance_sheet" = false := by simpa using h1
    have hbs : lookupD d "balance_sheet" = none := (hasKey_false_iff _ _).mp h1f
    simp only [h1f, Bool.not_false, if_true]
    rw [hasKey_append_ne d "balance_sheet" "income_statement" [] (by decide)]
    by_cases h2 : hasKey d "income_statement"
    · simp only [h2, Bool.not_true, Bool.false_eq_true, if_false]
      rw [lookupD_append_self d "balance_sheet" [] hbs,
        lookupD_append_ne d "balance_sheet" "income_statement" [] (by decide), hbs]
      simp only [Option.getD_some, Option.getD_none]
      split_ifs <;> rfl
    · have h2f : hasKey d "income_statement" = false := by simpa using h2
      have his : lookupD d "income_statement" = none := (hasKey_false_iff _ _).mp h2f
      simp only [h2f, Bool.not_false, if_true]
      rw [lookupD_append_ne (d ++ [("balance_sheet", [])]) "income_statement" "balance_sheet" []
          (by decide),
        lookupD_append_self d "balance_sheet" [] hbs,
        lookupD_append_self (d ++ [("balance_sheet", [])]) "income_statement" []
          (by rw [lookupD_append_ne d "balance_sheet" "income_statement" [] (by decide)]
              exact his),
        hbs, his]
      simp only [Option.getD_some, Option.getD_none]
      split_ifs <;> rfl

/-- A balance-sheet-equation mismatch beyond the 1% tolerance produces the
mismatch warning while the gate still returns `True`. -/
theorem stage1_mismatch_warns (d : Dict (Dict ℚ)) (bs : Dict ℚ)
    (hbs : lookupD d "balance_sheet" = some bs)
    (hta : hasKey bs "total_assets" = true)
    (htl : hasKey bs "total_liabilities" = true)
    (hte : hasKey bs "total_equity" = true)
    (hmis : getD0 bs "total_assets" * (1 / 100) <
      |getD0 bs "total_assets" - (getD0 bs "total_liabilities" + getD0 bs "total_equity")|) :
    exceptOk (validate_stage1_output d).1 = true ∧
    "Balance sheet equation mismatch" ∈ (validate_stage1_output d).2.2 := by
  have hbsne : bs ≠ [] := by
    intro h
    rw [h] at hta
    simp [hasKey] at hta
  have h1 : hasKey d "balance_sheet" = true := by
    by_contra hcon
    have := (hasKey_false_iff _ _).mp (by simpa using hcon)
    rw [hbs] at this
    exact Option.noConfusion this
  have hcond : qmul (getD0 bs "total_assets") (Rat.divInt 1 100) <
      qabs (qsub (getD0 bs "total_assets")
        (qadd (getD0 bs "total_liabilities") (getD0 bs "total_equity"))) := by
    rw [qmul_eq, qabs_eq, qsub_eq, qadd_eq,
      show (Rat.divInt 1 100 : ℚ) = 1 / 100 by rw [Rat.divInt_eq_div]; norm_num]
    exact hmis
  constructor
  · rw [stage1_result, if_neg (fun hc => hbsne (by
      have := hc.1
      rw [hbs] at this
      simpa using this))]
    rfl
  · unfold validate_stage1_output
    dsimp only
    by_cases h2 : hasKey d "income_statement"
    · simp only [h1, h2, Bool.not_true, Bool.false_eq_true, if_false]
      rw [hbs]
      simp only [Option.getD_some]
      rw [if_neg (fun hc => hbsne hc.1),
        if_pos (And.intro hta (And.intro htl (And.intro hte hcond)))]
      simp
    · have h2f : hasKey d "income_statement" = false := by simpa using h2
      simp only [h1, Bool.not_true, Bool.false_eq_true, if_false, h2f, Bool.not_false, if_true]
      rw [lookupD_append_ne d "income_statement" "balance_sheet" [] (by decide), hbs]
      simp only [Option.getD_some]
      rw [if_neg (fun hc => hbsne hc.1),
        if_pos (And.intro hta (And.intro htl (And.intro hte hcond)))]
      simp

/-- **C8 (counterexample)**: the gate inspects only the `balance_sheet` and
`income_statement` sections.  A statement whose only non-empty section is
`cash_flow_statement` (a section the normalizer does produce) still raises,
refuting "returns True for every normalized statement that has at least one
non-empty section". -/
theorem c8_counterexample :
    (lookupD [("cash_flow_statement", [("operating_cash_flow", (1 : ℚ))])]
        "cash_flow_statement").getD [] ≠ [] ∧
    (validate_stage1_output
        [("cash_flow_statement", [("operating_cash_flow", (1 : ℚ))])]).1 =
      .error "No financial data extracted - both balance sheet and income statement are empty" := by
  constructor
  · decide
  · rw [stage1_result]
    rw [if_pos (And.intro (by decide) (by decide))]

/-- **C8 (amended)**: the stage 1→2 gate inspects only the `balance_sheet`
and `income_statement` sections: it returns `True` exactly when at least one
of those two (possibly just-inserted) sections is non-empty, raises
`ValidationError` when both are empty — regardless of any other section such
as `cash_flow_statement` — and a balance-sheet-equation mismatch beyond the
1% tolerance only produces a warning: the gate still returns `True`. -/
theorem c8_stage1_gate (d : Dict (Dict ℚ)) :
    (exceptOk (validate_stage1_output d).1 = true ↔
      ((lookupD d "balance_sheet").getD [] ≠ [] ∨
       (lookupD d "income_statement").getD [] ≠ [])) ∧
    ((lookupD d "balance_sheet").getD [] = [] →
      (lookupD d "income_statement").getD [] = [] →
      (validate_stage1_output d).1 =
        .error "No financial data extracted - both balance sheet and income statement are empty") ∧
    (∀ bs, lookupD d "balance_sheet" = some bs →
      hasKey bs "total_assets" = true →
      hasKey bs "total_liabilities" = true →
      hasKey bs "total_equity" = true →
      getD0 bs "total_assets" * (1 / 100) <
        |getD0 bs "total_assets" - (getD0 bs "total_liabilities" + getD0 bs "total_equity")| →
      exceptOk (validate_stage1_output d).1 = true ∧
      "Balance sheet equation mismatch" ∈ (validate_stage1_output d).2.2) := by
  refine ⟨?_, ?_, fun bs hbs hta htl hte hmis =>
    stage1_mismatch_warns d bs hbs hta htl hte hmis⟩
  · rw [stage1_result]
    split_ifs with hc
    · simp [exceptOk, hc.1, hc.2]
    · simp only [exceptOk, true_iff]
      exact not_and_or.mp hc
  · intro hB hI
    rw [stage1_result, if_pos (And.intro hB hI)]

/-- Witness for C8: a statement whose balance sheet violates the accounting
equation by far more than 1% still passes the gate, with the mismatch
warning emitted; and the all-empty statement is rejected. -/
theorem c8_stage1_gate_witness :
    (exceptOk (validate_stage1_output
        [("balance_sheet", [("total_assets", (100 : ℚ)), ("total_liabilities", 10),
          ("total_equity", 10)])]).1 = true ∧
      "Balance sheet equation mismatch" ∈ (validate_stage1_output
        [("balance_sheet", [("total_assets", (100 : ℚ)), ("total_liabilities", 10),
          ("total_equity", 10)])]).2.2) ∧
    (validate_stage1_output ([] : Dict (Dict ℚ))).1 =
      .error "No financial data extracted - both balance sheet and income statement are empty" := by
  constructor
  · refine (c8_stage1_gate _).2.2
      [("total_assets", (100 : ℚ)), ("total_liabilities", 10), ("total_equity", 10)]
      (by decide) (by decide) (by decide) (by decide) ?_
    rw [show getD0 [("total_assets", (100 : ℚ)), ("total_liabilities", 10),
        ("total_equity", 10)] "total_assets" * (1 / 100) =
        qmul (getD0 [("total_assets", (100 : ℚ)), ("total_liabilities", 10),
        ("total_equity", 10)] "total_assets") (Rat.divInt 1 100) by
      rw [qmul_eq, show (Rat.divInt 1 100 : ℚ) = 1 / 100 by
        rw [Rat.divInt_eq_div]; norm_num]]
    rw [show |getD0 [("total_assets", (100 : ℚ)), ("total_liabilities", 10),
        ("total_equity", 10)] "total_assets" -
        (getD0 [("total_assets", (100 : ℚ)), ("total_liabilities", 10),
        ("total_equity", 10)] "total_liabilities" +
        getD0 [("total_assets", (100 : ℚ)), ("total_liabilities", 10),
        ("total_equity", 10)] "total_equity")| =
        qabs (qsub (getD0 [("total_assets", (100 : ℚ)), ("total_liabilities", 10),
        ("total_equity", 10)] "total_assets")
        (qadd (getD0 [("total_assets", (100 : ℚ)), ("total_liabilities", 10),
        ("total_equity", 10)] "total_liabilities")
        (getD0 [("total_assets", (100 : ℚ)), ("total_liabilities", 10),
        ("total_equity", 10)] "total_equity"))) by
      rw [qabs_eq, qsub_eq, qadd_eq]]
    decide
  · exact (c8_stage1_gate []).2.1 (by decide) (by decide)

/-- Witness for C10: on the empty input both sections are inserted as a
side effect, the dictionary is changed, and validation itself fails. -/
theorem c10_stage1_mutation_witness :
    lookupD (validate_stage1_output ([] : Dict (Dict ℚ))).2.1 "balance_sheet" = some [] ∧
    (validate_stage1_output ([] : Dict (Dict ℚ))).2.1 ≠ ([] : Dict (Dict ℚ)) ∧
    lookupD (validate_stage1_output ([] : Dict (Dict ℚ))).2.1 "income_statement" = some [] ∧
    exceptOk (validate_stage1_output ([] : Dict (Dict ℚ))).1 = false :=
  ⟨((c10_stage1_mutation []).1 rfl).1, ((c10_stage1_mutation []).1 rfl).2,
   (c10_stage1_mutation []).2 rfl, by decide⟩

/-! ## Claim C6 — row semantics of the table parser -/

/-- **C6 (counterexample)**: an aggregate row does not unconditionally
overwrite the prior entry: when its raw value string is non-numeric the row
is skipped by the meaningful-value guard, so the prior entry survives
instead of being overwritten with the parsed value `0`. -/
theorem c6_counterexample :
    is_notes_row (stripS "자산총계") = false ∧
    clean_item_name (stripS "자산총계") ≠ "" ∧
    is_aggregate_row (clean_item_name (stripS "자산총계")) = true ∧
    lookupD (processRow [("자산총계", 5)] ["자산총계", "xyz"] 1) "자산총계" ≠
      some (parse_financial_value (rowValueStr ["자산총계", "xyz"] 1)) := by decide

/-- **C6 (amended)**: for every row of at least two cells whose stripped
label is not a notes row and cleans to a non-empty name, and whose chosen
value string is non-empty and differs from `"0"`: a notes row never
contributes (it leaves the dictionary unchanged); when the row passes the
meaningful-value guard — the parsed value is nonzero, or the raw value
string is literally `"0"`, `"0.0"` or `"-"` — an aggregate name
unconditionally overwrites any prior entry with the parsed value (so a
`"-"` or `"0.0"` cell overwrites an existing entry with `0`), and a
non-aggregate name is stored only if the key is not already present; a row
failing the guard (a cell whose parse falls back to `0` without being a
literal zero or dash) leaves the dictionary unchanged, even when the key is
absent. -/
theorem c6_row_semantics (d : Dict ℚ) (row : List String) (v : ℕ) :
    (is_notes_row (stripS (cellAt row 0)) = true → processRow d row v = d) ∧
    (2 ≤ row.length →
     is_notes_row (stripS (cellAt row 0)) = false →
     clean_item_name (stripS (cellAt row 0)) ≠ "" →
     rowValueStr row v ≠ "" →
     rowValueStr row v ≠ "0" →
     (((parse_financial_value (rowValueStr row v) ≠ 0 ∨
         rowValueStr row v ∈ (["0", "0.0", "-"] : List String)) →
       ((is_aggregate_row (clean_item_name (stripS (cellAt row 0))) = true →
          lookupD (processRow d row v) (clean_item_name (stripS (cellAt row 0))) =
            some (parse_financial_value (rowValueStr row v))) ∧
        (is_aggregate_row (clean_item_name (stripS (cellAt row 0))) = false →
          (hasKey d (clean_item_name (stripS (cellAt row 0))) = true →
            processRow d row v = d) ∧
          (hasKey d (clean_item_name (stripS (cellAt row 0))) = false →
            processRow d row v =
              d ++ [(clean_item_name (stripS (cellAt row 0)),
                parse_financial_value (rowValueStr row v))])))) ∧
      (¬ (parse_financial_value (rowValueStr row v) ≠ 0 ∨
         rowValueStr row v ∈ (["0", "0.0", "-"] : List String)) →
       processRow d row v = d))) := by
  constructor
  · intro h
    unfold processRow
    split_ifs <;> simp_all
  · intro h2 hnotes hname hvs1 hvs2
    have hraw : stripS (cellAt row 0) ≠ "" := by
      intro h
      rw [h] at hname
      exact hname rfl
    constructor
    · intro hmean
      unfold processRow
      rw [if_neg (not_lt.mpr h2), if_neg hraw, if_neg (by simp [hnotes]), if_neg hname,
        if_neg (fun hor => hor.elim (fun ha => hvs1 ha) (fun hb => hvs2 hb)),
        if_pos hmean]
      constructor
      · intro hagg
        rw [if_pos hagg]
        exact lookupD_setKey_self _ _ _
      · intro hagg
        rw [if_neg (by simp [hagg])]
        constructor
        · intro hk
          rw [if_pos hk]
        · intro hk
          rw [if_neg (by simp [hk])]
    · intro hfail
      unfold processRow
      rw [if_neg (not_lt.mpr h2), if_neg hraw, if_neg (by simp [hnotes]), if_neg hname,
        if_neg (fun hor => hor.elim (fun ha => hvs1 ha) (fun hb => hvs2 hb)),
        if_neg hfail]

/-- Witness for the amended C6: the two notes-row labels of the
specification contribute nothing; an aggregate row with a numeric value
overwrites the prior entry under its cleaned name; a dash cell passes the
meaningful-value guard and overwrites the prior entry with the parsed `0`;
and an unparseable cell fails the guard and leaves the dictionary
untouched. -/
theorem c6_row_semantics_witness :
    processRow [] ["삼성전자㈜", "100"] 1 = [] ∧
    processRow [] ["(*1) 주석참조", "100"] 1 = [] ∧
    lookupD (processRow [("자산총계", (5 : ℚ))] ["자산총계 (주3)", "523,659,586"] 1)
        (clean_item_name (stripS (cellAt ["자산총계 (주3)", "523,659,586"] 0))) =
      some (parse_financial_value (rowValueStr ["자산총계 (주3)", "523,659,586"] 1)) ∧
    lookupD (processRow [("자산총계", (5 : ℚ))] ["자산총계", "-"] 1)
        (clean_item_name (stripS (cellAt ["자산총계", "-"] 0))) =
      some (parse_financial_value (rowValueStr ["자산총계", "-"] 1)) ∧
    processRow [("자산총계", (5 : ℚ))] ["자산총계", "xyz"] 1 = [("자산총계", (5 : ℚ))] :=
  ⟨(c6_row_semantics [] ["삼성전자㈜", "100"] 1).1 (by decide),
   (c6_row_semantics [] ["(*1) 주석참조", "100"] 1).1 (by decide),
   (((c6_row_semantics [("자산총계", 5)] ["자산총계 (주3)", "523,659,586"] 1).2 (by decide)
     (by decide) (by decide) (by decide) (by decide)).1 (Or.inl (by decide))).1 (by decide),
   (((c6_row_semantics [("자산총계", 5)] ["자산총계", "-"] 1).2 (by decide)
     (by decide) (by decide) (by decide) (by decide)).1 (Or.inr (by decide))).1 (by decide),
   ((c6_row_semantics [("자산총계", 5)] ["자산총계", "xyz"] 1).2 (by decide)
     (by decide) (by decide) (by decide) (by decide)).2 (by decide)⟩

/-! ## Claim C5 — income-statement value-column selection -/

theorem find?_first (p : α → Bool) (pre : List α) (x : α) (post : List α)
    (hx : p x = true) (hpre : ∀ y ∈ pre, p y = false) :
    (pre ++ x :: post).find? p = some x := by
  induction pre with
  | nil => simp [List.find?_cons, hx]
  | cons a pre ih =>
    rw [List.cons_append, List.find?_cons, hpre a (List.mem_cons_self a pre)]
    exact ih (fun y hy => hpre y (List.mem_cons_of_mem a hy))

/-- **C5 (counterexample)**: for a table with fewer than two rows the
selector short-circuits to column 1, even when a column's concatenated
header text contains both "당" and "누적": on the one-row table below the
only such column is column 2, but the selector returns 1. -/
theorem c5_counterexample :
    find_value_column_index [["과목", "전분기", "당분기 누적"]] "income_statement" = 1 ∧
    buildColumnHeaders [["과목", "전분기", "당분기 누적"]] =
      [(1, "전분기"), (2, "당분기누적")] ∧
    incomeP1 "당분기누적" = true ∧ incomeP1 "전분기" = false := by decide

/-- **C5 (amended)**: for every income-statement raw table with at least
two rows, the selector returns the index of the first column (in
header-map order) whose concatenated header text contains both "당" and
"누적"; when no such column exists, the first whose header contains
"당분기" or "당기" but not "3개월"; and otherwise it returns exactly what
the balance-sheet rule returns. -/
theorem c5_column_selection (table : List (List String)) (h2 : 2 ≤ table.length) :
    (∀ pre i hd post, buildColumnHeaders table = pre ++ (i, hd) :: post →
      incomeP1 hd = true → (∀ y ∈ pre, incomeP1 y.2 = false) →
      find_value_column_index table "income_statement" = i) ∧
    ((∀ y ∈ buildColumnHeaders table, incomeP1 y.2 = false) →
      ∀ pre i hd post, buildColumnHeaders table = pre ++ (i, hd) :: post →
      incomeP2 hd = true → (∀ y ∈ pre, incomeP2 y.2 = false) →
      find_value_column_index table "income_statement" = i) ∧
    ((∀ y ∈ buildColumnHeaders table, incomeP1 y.2 = false ∧ incomeP2 y.2 = false) →
      find_value_column_index table "income_statement" =
        find_value_column_index table "balance_sheet") := by
  have hnl : ¬ table.length < 2 := not_lt.mpr h2
  refine ⟨?_, ?_, ?_⟩
  · intro pre i hd post hsplit hp1 hpre
    unfold find_value_column_index
    rw [if_neg hnl, if_pos rfl]
    have hfind : (buildColumnHeaders table).find? (fun p => incomeP1 p.2) = some (i, hd) := by
      rw [hsplit]
      exact find?_first _ _ _ _ hp1 (fun y hy => hpre y hy)
    rw [hfind]
  · intro hall1 pre i hd post hsplit hp2 hpre
    unfold find_value_column_index
    rw [if_neg hnl, if_pos rfl]
    have hnone : (buildColumnHeaders table).find? (fun p => incomeP1 p.2) = none := by
      rw [List.find?_eq_none]
      intro y hy
      simp [hall1 y hy]
    have hfind : (buildColumnHeaders table).find? (fun p => incomeP2 p.2) = some (i, hd) := by
      rw [hsplit]
      exact find?_first _ _ _ _ hp2 (fun y hy => hpre y hy)
    rw [hnone, hfind]
  · intro hall
    unfold find_value_column_index
    rw [if_neg hnl, if_neg hnl, if_pos rfl, if_neg (by decide)]
    have hnone1 : (buildColumnHeaders table).find? (fun p => incomeP1 p.2) = none := by
      rw [List.find?_eq_none]
      intro y hy
      simp [(hall y hy).1]
    have hnone2 : (buildColumnHeaders table).find? (fun p => incomeP2 p.2) = none := by
      rw [List.find?_eq_none]
      intro y hy
      simp [(hall y hy).2]
    rw [hnone1, hnone2]

/-- Witness for the amended C5, at the specification's own example table
(with a data row added so that the table has two rows): the selector
returns the index of "당분기 누적", namely 2. -/
theorem c5_column_selection_witness :
    find_value_column_index
      [["과목", "당분기 3개월", "당분기 누적", "전분기 3개월", "전분기 누적"],
       ["매출액", "1", "2", "3", "4"]] "income_statement" = 2 :=
  (c5_column_selection
    [["과목", "당분기 3개월", "당분기 누적", "전분기 3개월", "전분기 누적"],
     ["매출액", "1", "2", "3", "4"]] (by decide)).1
    [(1, "당분기3개월 1")] 2 "당분기누적 2"
    [(3, "전분기3개월 3"), (4, "전분기누적 4")] (by decide) (by decide) (by decide)

/-! ## Claim C4 — idempotence of the item-name cleaner -/

theorem string_eta (s t : String) (h : s.data = t.data) : s = t := by
  cases s
  cases t
  exact congrArg String.mk h

theorem mem_of_mem_dropWhile (p : Char → Bool) :
    ∀ (l : List Char) (c : Char), c ∈ l.dropWhile p → c ∈ l := by
  intro l
  induction l with
  | nil => intro c hc; simpa using hc
  | cons a rest ih =>
    intro c hc
    rw [List.dropWhile_cons] at hc
    split_ifs at hc with hpa
    · exact List.mem_cons_of_mem a (ih c hc)
    · exact hc

theorem tryNote_eq_none (l : List Char) (h : ('(' : Char) ∉ l) : tryNote l = none := by
  unfold tryNote
  split
  · rename_i rest heq
    exact absurd (mem_of_mem_dropWhile pySpace l '('
      (by rw [heq]; exact List.mem_cons_self _ _)) h
  · rfl

theorem tryUnit_eq_none (l : List Char) (h : ('(' : Char) ∉ l) : tryUnit l = none := by
  unfold tryUnit
  split
  · rename_i rest heq
    exact absurd (mem_of_mem_dropWhile pySpace l '('
      (by rw [heq]; exact List.mem_cons_self _ _)) h
  · rfl

theorem subAllF_eq_self (m : List Char → Option (List Char)) (P : List Char → Prop)
    (hm : ∀ l, P l → m l = none) (htail : ∀ c rest, P (c :: rest) → P rest) :
    ∀ (fuel : ℕ) (l : List Char), P l → subAllF m fuel l = l := by
  intro fuel
  induction fuel with
  | zero => intro l _; rfl
  | succ n ih =>
    intro l hP
    cases l with
    | nil => rfl
    | cons c rest =>
      unfold subAllF
      rw [hm _ hP]
      exact congrArg (c :: ·) (ih rest (htail c rest hP))

theorem subNoteRefs_eq_self (l : List Char) (h : ('(' : Char) ∉ l) : subNoteRefs l = l :=
  subAllF_eq_self tryNote (fun l2 => ('(' : Char) ∉ l2)
    (fun l2 h2 => tryNote_eq_none l2 h2)
    (fun c rest hP hmem => hP (List.mem_cons_of_mem c hmem)) l.length l h

theorem subUnits_eq_self (l : List Char) (h : ('(' : Char) ∉ l) : subUnits l = l :=
  subAllF_eq_self tryUnit (fun l2 => ('(' : Char) ∉ l2)
    (fun l2 h2 => tryUnit_eq_none l2 h2)
    (fun c rest hP hmem => hP (List.mem_cons_of_mem c hmem)) l.length l h

theorem subPrefixOrdinal_eq_self (l : List Char) (h : ('.' : Char) ∉ l) :
    subPrefixOrdinal l = l := by
  unfold subPrefixOrdinal
  split
  · rename_i c tail
    split_ifs with hr
    · split
      all_goals try rfl
      all_goals
        rename_i r heq
        exact absurd (mem_of_mem_dropWhile romanClass _ '.'
          (by rw [heq]; exact List.mem_cons_self _ _)) h
    · rfl
  · rfl

theorem trailParenAux_eq_none (l : List Char) (h : ('(' : Char) ∉ l) :
    trailParenAux l = none := by
  induction l with
  | nil => rfl
  | cons c rest ih =>
    unfold trailParenAux
    split_ifs with h1 h2
    · rfl
    · exact absurd (by rw [← h2]; exact List.mem_cons_self c rest) h
    · exact ih (fun hm => h (List.mem_cons_of_mem c hm))

theorem subTrailingParen_eq_self (l : List Char) (h : ('(' : Char) ∉ l) :
    subTrailingParen l = l := by
  unfold subTrailingParen
  split
  · rename_i r2 heq
    have hr2 : ('(' : Char) ∉ r2 := by
      intro hm
      exact h (List.mem_reverse.mp (mem_of_mem_dropWhile pySpace l.reverse '('
        (by rw [heq]; exact List.mem_cons_of_mem _ hm)))
    rw [trailParenAux_eq_none r2 hr2]
  · rfl

theorem splitWSAux_nil_eq (acc : List Char) :
    splitWSAux [] acc = if acc = [] then [] else [acc.reverse] := rfl

theorem splitWSAux_cons_eq (c : Char) (rest acc : List Char) :
    splitWSAux (c :: rest) acc =
      if pySpace c = true then
        if acc = [] then splitWSAux rest [] else acc.reverse :: splitWSAux rest []
      else splitWSAux rest (c :: acc) := rfl

theorem splitWSAux_good : ∀ (l acc : List Char), (∀ c ∈ acc, pySpace c = false) →
    ∀ t ∈ splitWSAux l acc, t ≠ [] ∧ ∀ c ∈ t, pySpace c = false := by
  intro l
  induction l with
  | nil =>
    intro acc hacc t ht
    unfold splitWSAux at ht
    by_cases ha : acc = []
    · rw [if_pos ha] at ht
      exact absurd ht (List.not_mem_nil t)
    · rw [if_neg ha] at ht
      rcases List.mem_singleton.mp ht with rfl
      exact ⟨by simpa using ha, fun c hc => hacc c (List.mem_reverse.mp hc)⟩
  | cons c rest ih =>
    intro acc hacc t ht
    unfold splitWSAux at ht
    by_cases hsp : pySpace c = true
    · rw [if_pos hsp] at ht
      by_cases ha : acc = []
      · rw [if_pos ha] at ht
        exact ih [] (by simp) t ht
      · rw [if_neg ha] at ht
        rcases List.mem_cons.mp ht with rfl | ht2
        · exact ⟨by simpa using ha, fun c2 hc2 => hacc c2 (List.mem_reverse.mp hc2)⟩
        · exact ih [] (by simp) t ht2
    · rw [if_neg hsp] at ht
      refine ih (c :: acc) ?_ t ht
      intro c2 hc2
      rcases List.mem_cons.mp hc2 with rfl | h2
      · simpa using hsp
      · exact hacc c2 h2

theorem splitWSAux_token : ∀ (t acc : List Char), (∀ c ∈ t, pySpace c = false) →
    (acc ≠ [] ∨ t ≠ []) → splitWSAux t acc = [acc.reverse ++ t] := by
  intro t
  induction t with
  | nil =>
    intro acc hns hne
    have ha : acc ≠ [] := by
      rcases hne with h | h
      · exact h
      · exact absurd rfl h
    rw [splitWSAux_nil_eq, if_neg ha]
    simp
  | cons c t2 ih =>
    intro acc hns hne
    rw [splitWSAux_cons_eq, if_neg (by simp [hns c (List.mem_cons_self c t2)])]
    rw [ih (c :: acc) (fun c2 hc2 => hns c2 (List.mem_cons_of_mem c hc2)) (Or.inl (by simp))]
    simp

theorem splitWSAux_append : ∀ (t acc rest : List Char), (∀ c ∈ t, pySpace c = false) →
    (acc ≠ [] ∨ t ≠ []) →
    splitWSAux (t ++ ' ' :: rest) acc = (acc.reverse ++ t) :: splitWSAux rest [] := by
  intro t
  induction t with
  | nil =>
    intro acc rest hns hne
    have ha : acc ≠ [] := by
      rcases hne with h | h
      · exact h
      · exact absurd rfl h
    rw [List.nil_append]
    rw [splitWSAux_cons_eq, if_pos (by decide), if_neg ha]
    simp
  | cons c t2 ih =>
    intro acc rest hns hne
    rw [List.cons_append]
    rw [splitWSAux_cons_eq, if_neg (by simp [hns c (List.mem_cons_self c t2)])]
    rw [ih (c :: acc) rest (fun c2 hc2 => hns c2 (List.mem_cons_of_mem c hc2)) (Or.inl (by simp))]
    simp

theorem splitWS_joinSp : ∀ ts : List (List Char),
    (∀ t ∈ ts, t ≠ [] ∧ ∀ c ∈ t, pySpace c = false) →
    splitWS (joinSp ts) = ts := by
  intro ts
  induction ts with
  | nil => intro _; rfl
  | cons t ts' ih =>
    intro h
    cases ts' with
    | nil =>
      show splitWSAux (joinSp [t]) [] = [t]
      rw [show joinSp [t] = t from rfl,
        splitWSAux_token t [] (h t (List.mem_cons_self _ _)).2
          (Or.inr (h t (List.mem_cons_self _ _)).1)]
      simp
    | cons t2 ts'' =>
      show splitWSAux (joinSp (t :: t2 :: ts'')) [] = t :: t2 :: ts''
      rw [show joinSp (t :: t2 :: ts'') = t ++ ' ' :: joinSp (t2 :: ts'') from rfl,
        splitWSAux_append t [] _ (h t (List.mem_cons_self _ _)).2
          (Or.inr (h t (List.mem_cons_self _ _)).1)]
      rw [show splitWSAux (joinSp (t2 :: ts'')) [] = splitWS (joinSp (t2 :: ts'')) from rfl,
        ih (fun u hu => h u (List.mem_cons_of_mem t hu))]
      simp

theorem normWS_idem (l : List Char) : normWS (normWS l) = normWS l := by
  unfold normWS
  rw [splitWS_joinSp (splitWS l) (fun t ht => splitWSAux_good l [] (by simp) t ht)]

theorem joinSp_ne_nil (t : List Char) (ts : List (List Char)) (h : t ≠ []) :
    joinSp (t :: ts) ≠ [] := by
  cases ts with
  | nil => exact h
  | cons t2 ts' =>
    rw [show joinSp (t :: t2 :: ts') = t ++ ' ' :: joinSp (t2 :: ts') from rfl]
    simp

theorem getLast?_append2 : ∀ (l1 l2 : List Char), l2 ≠ [] →
    (l1 ++ l2).getLast? = l2.getLast? := by
  intro l1
  induction l1 with
  | nil => intro l2 _; rfl
  | cons a l1 ih =>
    intro l2 h
    rw [List.cons_append]
    cases hl : l1 ++ l2 with
    | nil => exact absurd (List.append_eq_nil.mp hl).2 h
    | cons b t =>
      rw [List.getLast?_cons_cons, ← hl, ih l2 h]

theorem getLast?_mem2 : ∀ (l : List Char) (c : Char), l.getLast? = some c → c ∈ l := by
  intro l
  induction l with
  | nil => intro c hc; simp at hc
  | cons a l ih =>
    intro c hc
    cases l with
    | nil =>
      simp only [List.getLast?_singleton, Option.some.injEq] at hc
      simp [hc]
    | cons b l2 =>
      rw [List.getLast?_cons_cons] at hc
      exact List.mem_cons_of_mem a (ih c hc)

theorem joinSp_head_nonspace : ∀ (ts : List (List Char)),
    (∀ t ∈ ts, t ≠ [] ∧ ∀ c ∈ t, pySpace c = false) →
    ∀ c, (joinSp ts).head? = some c → pySpace c = false := by
  intro ts hgood c hc
  cases ts with
  | nil => simp [joinSp] at hc
  | cons t ts' =>
    have ht := hgood t (List.mem_cons_self t ts')
    cases t with
    | nil => exact absurd rfl ht.1
    | cons a t2 =>
      have hhead : (joinSp ((a :: t2) :: ts')).head? = some a := by
        cases ts' with
        | nil => rfl
        | cons t2' ts'' => rfl
      rw [hhead] at hc
      obtain rfl := Option.some.inj hc
      exact ht.2 _ (List.mem_cons_self _ _)

theorem joinSp_getLast_nonspace : ∀ (ts : List (List Char)),
    (∀ t ∈ ts, t ≠ [] ∧ ∀ c ∈ t, pySpace c = false) →
    ∀ c, (joinSp ts).getLast? = some c → pySpace c = false := by
  intro ts
  induction ts with
  | nil => intro _ c hc; simp [joinSp] at hc
  | cons t ts' ih =>
    intro hgood c hc
    have ht := hgood t (List.mem_cons_self t ts')
    cases ts' with
    | nil => exact ht.2 c (getLast?_mem2 t c hc)
    | cons t2 ts'' =>
      rw [show joinSp (t :: t2 :: ts'') = t ++ ' ' :: joinSp (t2 :: ts'') from rfl,
        getLast?_append2 t _ (by simp),
        show (' ' :: joinSp (t2 :: ts'')) = [' '] ++ joinSp (t2 :: ts'') from rfl,
        getLast?_append2 [' '] _ (joinSp_ne_nil t2 ts''
          (hgood t2 (List.mem_cons_of_mem t (List.mem_cons_self t2 ts''))).1)] at hc
      exact ih (fun u hu => hgood u (List.mem_cons_of_mem t hu)) c hc

theorem stripChars_normWS (l : List Char) : stripChars (normWS l) = normWS l := by
  have hgood := splitWSAux_good l [] (by simp)
  have h1 : (normWS l).dropWhile pySpace = normWS l := by
    rcases hnw : normWS l with _ | ⟨c, rest⟩
    · rfl
    · have hc : pySpace c = false := joinSp_head_nonspace (splitWS l) hgood c
        (by rw [show joinSp (splitWS l) = normWS l from rfl, hnw]; rfl)
      rw [List.dropWhile_cons, if_neg (by simp [hc])]
  have h2 : (normWS l).reverse.dropWhile pySpace = (normWS l).reverse := by
    rcases hnr : (normWS l).reverse with _ | ⟨c, rest⟩
    · rfl
    · have hlast : (normWS l).getLast? = some c := by
        rw [← List.head?_reverse, hnr]
        rfl
      have hc : pySpace c = false := joinSp_getLast_nonspace (splitWS l) hgood c hlast
      rw [List.dropWhile_cons, if_neg (by simp [hc])]
  unfold stripChars
  rw [h1, h2, List.reverse_reverse]

/-- **C4 (counterexample)**: the cleaner is not idempotent — removing the
trailing parenthetical of `"abc (1) (2)"` exposes a second trailing
parenthetical, which only a second pass removes. -/
theorem c4_counterexample :
    clean_item_name (clean_item_name "abc (1) (2)") ≠ clean_item_name "abc (1) (2)" := by
  decide

/-- **C4 (amended)**: the cleaner is idempotent on every label whose cleaned
form contains no parenthesis character and no period: a second application
changes nothing because the footnote, unit, trailing-parenthetical and
ordinal-prefix removals find nothing to strip, and whitespace collapsing is
idempotent.  (In general a second pass may strip a newly exposed trailing
parenthetical or ordinal prefix, as the counterexample shows.) -/
theorem c4_clean_idempotent (x : String)
    (hp : ('(' : Char) ∉ (clean_item_name x).data)
    (hd : ('.' : Char) ∉ (clean_item_name x).data) :
    clean_item_name (clean_item_name x) = clean_item_name x := by
  by_cases hx : x.data = []
  · have hcx : clean_item_name x = "" := by
      apply string_eta
      show cleanList x.data = "".data
      rw [hx]
      rfl
    rw [hcx]
    rfl
  · have hform : (clean_item_name x).data =
        stripChars (normWS (subTrailingParen (subPrefixOrdinal (subUnits (subNoteRefs x.data))))) := by
      show cleanList x.data = _
      unfold cleanList
      rw [if_neg hx]
    by_cases hy0 : (clean_item_name x).data = []
    · have hcx : clean_item_name x = "" := by
        apply string_eta
        rw [hy0]
      rw [hcx]
      rfl
    · apply string_eta
      show cleanList (clean_item_name x).data = (clean_item_name x).data
      unfold cleanList
      rw [if_neg hy0]
      rw [subNoteRefs_eq_self _ hp, subUnits_eq_self _ hp, subPrefixOrdinal_eq_self _ hd,
        subTrailingParen_eq_self _ hp]
      have hy1 : (clean_item_name x).data =
          normWS (subTrailingParen (subPrefixOrdinal (subUnits (subNoteRefs x.data)))) :=
        hform.trans (stripChars_normWS _)
      rw [hy1, normWS_idem]
      exact stripChars_normWS _

/-- Witness for the amended C4: the specification's own example label cleans
to a parenthesis-free, period-free name, on which the cleaner is
idempotent. -/
theorem c4_clean_idempotent_witness :
    (('(' : Char) ∉ (clean_item_name "현금및현금성자산 (주3,26)").data) ∧
    (('.' : Char) ∉ (clean_item_name "현금및현금성자산 (주3,26)").data) ∧
    clean_item_name (clean_item_name "현금및현금성자산 (주3,26)") =
      clean_item_name "현금및현금성자산 (주3,26)" :=
  ⟨by decide, by decide, c4_clean_idempotent "현금및현금성자산 (주3,26)" (by decide) (by decide)⟩

end Samsamoo
